import Mathlib

/-!
LeapPaint3D: the finger-painting canvas of `3DPaint.cpp`

A shallow embedding of the single source file of the repository:

* the parts of the sensor SDK data model the program reads (`Vector`, `Matrix`,
  `Pointable`, `Hand`, `Frame`, gesture types, the controller's gesture switches);
* `SampleListener`, the console-logging listener;
* `OpenGLCanvas`, the component that owns the point buffer (`points`, `count`),
  handles keys and mouse, receives frames and renders.

Conventions of the embedding

* `float` components are idealised as exact rationals (`ℚ`); `0.0075f` is `3/400`.
* `int count` is an `Int`.  `Leap::Vector points[1000000]` is a total map
  `Nat → Vector` of which only the indices below `kCapacity` exist; every
  subscript goes through `readPoint` / `writePoint`, which answer `none` when
  the index is outside the array (undefined behaviour in the program).
  The colour table `m_avColors` is a list of `kNumColors` entries, subscripted
  through `swapStep` in the same way; the 32-bit unsigned arithmetic of its
  shuffle index is written out with `% 2 ^ 32`.
* Objects of the GUI toolkit are represented by what the program does to them:
  the camera by the list of calls made on it, the OpenGL context by the number
  of repaints requested, the application by a quit flag.  Text written to
  `std::cout` by the canvas is not part of the canvas state and is left out.
* Values the program obtains from its environment during a call (the
  controller's current frame, whether a lock or a graphics context was
  obtained, the formatted frames-per-second text computed from the clock) are
  arguments of the embedded function.
-/

namespace Paint3D

/-! ## Sensor SDK data model -/

/-- Leap::Vector with rational components; the default constructor gives zero. -/
structure Vector where
  x : ℚ
  y : ℚ
  z : ℚ
deriving DecidableEq

namespace Vector

/-- Default constructor and `Vector::zero()`. -/
def zero : Vector := ⟨0, 0, 0⟩

/-- The operator `Vector * float`. -/
def mul (v : Vector) (scalar : ℚ) : Vector :=
  ⟨v.x * scalar, v.y * scalar, v.z * scalar⟩

/-- The operator `Vector + Vector`. -/
def add (a b : Vector) : Vector :=
  ⟨a.x + b.x, a.y + b.y, a.z + b.z⟩

end Vector

/-- Leap::Matrix: three basis vectors and an origin. -/
structure Matrix where
  xBasis : Vector
  yBasis : Vector
  zBasis : Vector
  origin : Vector
deriving DecidableEq

namespace Matrix

/-- The default constructor of the matrix type: the identity transform. -/
def identity : Matrix :=
  ⟨⟨1, 0, 0⟩, ⟨0, 1, 0⟩, ⟨0, 0, 1⟩, ⟨0, 0, 0⟩⟩

/-- Matrix::transformPoint, `xBasis*in.x + yBasis*in.y + zBasis*in.z + origin`. -/
def transformPoint (m : Matrix) (v : Vector) : Vector :=
  (((m.xBasis.mul v.x).add (m.yBasis.mul v.y)).add (m.zBasis.mul v.z)).add m.origin

/-- Matrix::transformDirection, `xBasis*in.x + yBasis*in.y + zBasis*in.z`. -/
def transformDirection (m : Matrix) (v : Vector) : Vector :=
  ((m.xBasis.mul v.x).add (m.yBasis.mul v.y)).add (m.zBasis.mul v.z)

end Matrix

/-- A finger or a tool of a frame: identifier, tip position and direction. -/
structure Pointable where
  id : Int
  tipPosition : Vector
  direction : Vector
deriving DecidableEq

/-- The invalid pointable returned by list queries that find nothing. -/
def Pointable.invalid : Pointable := ⟨-1, Vector.zero, Vector.zero⟩

/-- FingerList::leftmost: the member with the smallest x coordinate of the tip
(the first such member), the invalid finger for an empty list. -/
def leftmost : List Pointable → Pointable
  | [] => Pointable.invalid
  | f :: fs =>
    fs.foldl (fun best g => if g.tipPosition.x < best.tipPosition.x then g else best) f

/-- A tracked hand: the fingers attached to it. -/
structure Hand where
  fingers : List Pointable
deriving DecidableEq

/-- The gesture types of the SDK. -/
inductive GestureType where
  | TYPE_INVALID
  | TYPE_SWIPE
  | TYPE_CIRCLE
  | TYPE_SCREEN_TAP
  | TYPE_KEY_TAP
deriving DecidableEq

/-- One snapshot of tracking data: the hands (each with its fingers), the
fingers the sensor reports without a hand, the tools and the gestures. -/
structure Frame where
  hands : List Hand
  strayFingers : List Pointable
  tools : List Pointable
  gestures : List GestureType
deriving DecidableEq

namespace Frame

/-- The invalid (empty) frame held before any frame was delivered. -/
def invalid : Frame := ⟨[], [], [], []⟩

/-- Frame::fingers(): every finger detected in the frame. -/
def fingers (f : Frame) : List Pointable :=
  (f.hands.map Hand.fingers).flatten ++ f.strayFingers

/-- Frame::pointables(): every finger and tool detected in the frame. -/
def pointables (f : Frame) : List Pointable :=
  f.fingers ++ f.tools

end Frame

/-- The controller as the program uses it: the per-type gesture switches and
the most recent frame. -/
structure Controller where
  enabled : GestureType → Bool
  frame : Frame

/-- Controller::enableGesture(type) with the default `enable = true`. -/
def Controller.enableGesture (c : Controller) (t : GestureType) : Controller :=
  { c with enabled := Function.update c.enabled t true }

/-! ## SampleListener -/

/-- What a listener callback writes to the console, one entry per output
statement; numeric fields that depend on floating-point formatting only are
not carried. -/
inductive ConsoleLine where
  | text (line : String)
  | frameSummary (hands fingers tools gestures : Nat)
  | handFingers (fingerCount : Nat) (avgPos : Vector)
  | handPose
  | handAngles
  | gesture (t : GestureType)
  | blank
deriving DecidableEq

namespace SampleListener

/-- SampleListener::onInit. -/
def onInit (c : Controller) : Controller × List ConsoleLine :=
  (c, [ConsoleLine.text "Initialized"])

/-- SampleListener::onConnect: enables the four gesture types. -/
def onConnect (c : Controller) : Controller × List ConsoleLine :=
  ((((c.enableGesture GestureType.TYPE_CIRCLE).enableGesture
      GestureType.TYPE_KEY_TAP).enableGesture
      GestureType.TYPE_SCREEN_TAP).enableGesture GestureType.TYPE_SWIPE,
   [ConsoleLine.text "Connected"])

/-- SampleListener::onDisconnect. -/
def onDisconnect (c : Controller) : Controller × List ConsoleLine :=
  (c, [ConsoleLine.text "Disconnected"])

/-- SampleListener::onExit. -/
def onExit (c : Controller) : Controller × List ConsoleLine :=
  (c, [ConsoleLine.text "Exited"])

/-- The average tip position computed for the first hand. -/
def avgTipPosition (fingers : List Pointable) : Vector :=
  (fingers.foldl (fun acc f => acc.add f.tipPosition) Vector.zero).mul
    (1 / (fingers.length : ℚ))

/-- The console line written for one gesture of the frame. -/
def gestureLine : GestureType → ConsoleLine
  | GestureType.TYPE_CIRCLE => ConsoleLine.gesture GestureType.TYPE_CIRCLE
  | GestureType.TYPE_SWIPE => ConsoleLine.gesture GestureType.TYPE_SWIPE
  | GestureType.TYPE_KEY_TAP => ConsoleLine.gesture GestureType.TYPE_KEY_TAP
  | GestureType.TYPE_SCREEN_TAP => ConsoleLine.gesture GestureType.TYPE_SCREEN_TAP
  | _ => ConsoleLine.text "Unknown gesture type."

/-- SampleListener::onFrame: reads the controller and logs; the controller is
only queried. -/
def onFrame (c : Controller) : Controller × List ConsoleLine :=
  let frame := c.frame
  let summary := [ConsoleLine.frameSummary frame.hands.length frame.fingers.length
    frame.tools.length frame.gestures.length]
  let handLines :=
    match frame.hands with
    | [] => []
    | hand :: _ =>
      (if hand.fingers.isEmpty then []
       else [ConsoleLine.handFingers hand.fingers.length (avgTipPosition hand.fingers)])
      ++ [ConsoleLine.handPose, ConsoleLine.handAngles]
  let gestureLines := frame.gestures.map gestureLine
  let closing :=
    if !frame.hands.isEmpty || !frame.gestures.isEmpty then [ConsoleLine.blank] else []
  (c, summary ++ handLines ++ gestureLines ++ closing)

/-- SampleListener::onFocusGained. -/
def onFocusGained (c : Controller) : Controller × List ConsoleLine :=
  (c, [ConsoleLine.text "Focus Gained"])

/-- SampleListener::onFocusLost. -/
def onFocusLost (c : Controller) : Controller × List ConsoleLine :=
  (c, [ConsoleLine.text "Focus Lost"])

end SampleListener

/-! ## GUI toolkit objects -/

/-- The key codes of the toolkit that the source names symbolically
(`KeyPress::escapeKey` and the arrow keys); their values belong to the toolkit
and are taken as a parameter. -/
structure KeyCodes where
  escapeKey : Int
  upKey : Int
  downKey : Int
  leftKey : Int
  rightKey : Int
deriving DecidableEq

/-- Whether a code is one of the five symbolic key codes. -/
def KeyCodes.isSpecial (K : KeyCodes) (c : Int) : Bool :=
  c == K.escapeKey || c == K.upKey || c == K.downKey || c == K.leftKey || c == K.rightKey

/-- The C library `toupper` in the default locale: lower-case ASCII letters
map to upper case, every other value is returned as it is. -/
def toupper (c : Int) : Int :=
  if 97 ≤ c ∧ c ≤ 122 then c - 32 else c

/-- A call made on the orbit camera.  Angles of `RotateOrbit` are given as
multiples of `LeapUtil::kfHalfPi`. -/
inductive CameraCall where
  | RotateOrbit (fDeltaMagnitude fDeltaYaw fDeltaPitch : ℚ)
  | SetOrbitTarget (target : Vector)
  | SetPOVLookAt (pov target : Vector)
  | OnMouseDown (pos : Int × Int)
  | OnMouseMoveOrbit (pos : Int × Int)
  | OnMouseWheel (deltaY : ℚ)
  | SetAspectRatio (fAspectRatio : ℚ)
deriving DecidableEq

/-- A text call on the 2D graphics context of the overlay. -/
inductive TextCall where
  | drawSingleLineText (text : String)
  | drawMultiLineText (text : String)
deriving DecidableEq

/-- What `drawPointables` draws for one pointable: the colour index, the
translation, the end of the direction line and the scale of the sphere. -/
structure PointableGlyph where
  colorIndex : Nat
  vStartPos : Vector
  vEndPos : Vector
  fScale : ℚ
deriving DecidableEq

/-- The draw calls of one render pass: the line segments of the points loop
(each a `glBegin(GL_LINES)` pair of vertices), the pointable glyphs and the
overlay text. -/
structure RenderOutput where
  lines : List (Vector × Vector)
  glyphs : List PointableGlyph
  overlay : List TextCall
deriving DecidableEq

/-! ## OpenGLCanvas -/

/-- The bound of the array `points`. -/
def kCapacity : Nat := 1000000

/-- Reading `points[i]`: defined for an index inside the array only. -/
def readPoint (points : Nat → Vector) (i : Int) : Option Vector :=
  if 0 ≤ i ∧ i < (kCapacity : Int) then some (points i.toNat) else none

/-- Writing `points[i] = v`: defined for an index inside the array only. -/
def writePoint (points : Nat → Vector) (i : Int) (v : Vector) : Option (Nat → Vector) :=
  if 0 ≤ i ∧ i < (kCapacity : Int) then some (Function.update points i.toNat v) else none

/-- The members of `OpenGLCanvas` the program reads or writes after
construction, and the toolkit objects it acts on. -/
structure OpenGLCanvas where
  m_camera : List CameraCall
  m_lastFrame : Frame
  m_mtxFrameTransform : Matrix
  m_fFrameScale : ℚ
  m_fPointableRadius : ℚ
  m_strUpdateFPS : String
  m_strRenderFPS : String
  m_strPrompt : String
  m_strHelp : String
  m_bShowHelp : Bool
  m_bPaused : Bool
  count : Int
  points : Nat → Vector
  repaintsRequested : Nat
  quitRequested : Bool

namespace OpenGLCanvas

/-- OpenGLCanvas::resetCamera. -/
def resetCamera (s : OpenGLCanvas) : OpenGLCanvas :=
  { s with m_camera := s.m_camera ++
      [CameraCall.SetOrbitTarget Vector.zero,
       CameraCall.SetPOVLookAt ⟨0, 2, 4⟩ Vector.zero] }

/-- The help text assigned in the constructor. -/
def helpText : String :=
  "ESC - quit\nh - Toggle help and frame rate display\np - Toggle pause\n" ++
  "Mouse Drag  - Rotate camera\nMouse Wheel - Zoom camera\n" ++
  "Arrow Keys  - Rotate camera\nSpace       - Reset camera"

/-- The canvas as the constructor and the member initialisers leave it. -/
def init : OpenGLCanvas :=
  resetCamera
    { m_camera := []
      m_lastFrame := Frame.invalid
      m_mtxFrameTransform := { Matrix.identity with origin := ⟨0, -2, 1 / 2⟩ }
      m_fFrameScale := 3 / 400
      m_fPointableRadius := 1 / 20
      m_strUpdateFPS := ""
      m_strRenderFPS := ""
      m_strPrompt := ""
      m_strHelp := helpText
      m_bShowHelp := false
      m_bPaused := false
      count := 0
      points := fun _ => Vector.zero
      repaintsRequested := 0
      quitRequested := false }

/-- OpenGLCanvas::keyPressed: the result and the canvas afterwards. -/
def keyPressed (K : KeyCodes) (keyCode : Int) (s : OpenGLCanvas) : Bool × OpenGLCanvas :=
  let iKeyCode := toupper keyCode
  if iKeyCode = K.escapeKey then
    (true, { s with quitRequested := true })
  else if iKeyCode = K.upKey then
    (true, { s with m_camera := s.m_camera ++ [CameraCall.RotateOrbit 0 0 (-(1 / 20))] })
  else if iKeyCode = K.downKey then
    (true, { s with m_camera := s.m_camera ++ [CameraCall.RotateOrbit 0 0 (1 / 20)] })
  else if iKeyCode = K.leftKey then
    (true, { s with m_camera := s.m_camera ++ [CameraCall.RotateOrbit 0 (-(1 / 20)) 0] })
  else if iKeyCode = K.rightKey then
    (true, { s with m_camera := s.m_camera ++ [CameraCall.RotateOrbit 0 (1 / 20) 0] })
  else if iKeyCode = 32 then
    (true, s.resetCamera)
  else if iKeyCode = 67 then
    (true, { s with count := 0 })
  else if iKeyCode = 72 then
    (true, { s with m_bShowHelp := !s.m_bShowHelp })
  else if iKeyCode = 80 then
    (true, { s with m_bPaused := !s.m_bPaused })
  else
    (false, s)

/-- OpenGLCanvas::mouseDown. -/
def mouseDown (pos : Int × Int) (s : OpenGLCanvas) : OpenGLCanvas :=
  { s with m_camera := s.m_camera ++ [CameraCall.OnMouseDown pos] }

/-- OpenGLCanvas::mouseDrag. -/
def mouseDrag (pos : Int × Int) (s : OpenGLCanvas) : OpenGLCanvas :=
  { s with m_camera := s.m_camera ++ [CameraCall.OnMouseMoveOrbit pos]
           repaintsRequested := s.repaintsRequested + 1 }

/-- OpenGLCanvas::mouseWheelMove. -/
def mouseWheelMove (deltaY : ℚ) (s : OpenGLCanvas) : OpenGLCanvas :=
  { s with m_camera := s.m_camera ++ [CameraCall.OnMouseWheel deltaY]
           repaintsRequested := s.repaintsRequested + 1 }

/-- The text calls of the overlay in `renderOpenGL2D`. -/
def overlayText (s : OpenGLCanvas) : List TextCall :=
  (if s.m_bShowHelp then
     (if !s.m_bPaused then [TextCall.drawSingleLineText s.m_strUpdateFPS] else []) ++
     [TextCall.drawSingleLineText s.m_strRenderFPS,
      TextCall.drawMultiLineText s.m_strHelp]
   else []) ++
  [TextCall.drawMultiLineText s.m_strPrompt]

/-- The capture step of `renderOpenGL2D` (from reading the controller's frame
to the end of the hands block): a point is recorded when the first hand of the
frame has exactly one finger. -/
def captureStep (frame : Frame) (s : OpenGLCanvas) : Option OpenGLCanvas :=
  match frame.hands with
  | [] => some s
  | hand :: _ =>
    let fingers := hand.fingers
    if 1 = fingers.length then
      match writePoint s.points s.count (leftmost fingers).tipPosition with
      | some points' => some { s with points := points', count := s.count + 1 }
      | none => none
    else some s

/-- OpenGLCanvas::renderOpenGL2D: overlay text and capture, both only when the
2D graphics context was obtained (`glRenderer != nullptr`). -/
def renderOpenGL2D (glRenderer : Bool) (frame : Frame) (s : OpenGLCanvas) :
    Option (OpenGLCanvas × List TextCall) :=
  if glRenderer then
    match captureStep frame s with
    | some s' => some (s', overlayText s)
    | none => none
  else some (s, [])

/-- OpenGLCanvas::update: stores the update-rate text computed from the clock. -/
def update (updateFPS : String) (s : OpenGLCanvas) : OpenGLCanvas :=
  { s with m_strUpdateFPS := updateFPS }

/-- OpenGLCanvas::onFrame: when not paused, updates, stores the controller's
frame and requests a repaint. -/
def onFrame (frame : Frame) (updateFPS : String) (s : OpenGLCanvas) : OpenGLCanvas :=
  if !s.m_bPaused then
    let s1 := update updateFPS s
    { s1 with m_lastFrame := frame, repaintsRequested := s1.repaintsRequested + 1 }
  else s

/-- The transform applied to a stored point before it is drawn:
`m_mtxFrameTransform.transformPoint( p * m_fFrameScale )`. -/
def toScene (s : OpenGLCanvas) (p : Vector) : Vector :=
  s.m_mtxFrameTransform.transformPoint (p.mul s.m_fFrameScale)

/-- The loop `for (int i = 1; i < count; i++)` of `renderOpenGL`, from index
`i` with the current `vStartPos`: the segments it issues, in order. -/
def drawLoop (s : OpenGLCanvas) (i : Int) (vStartPos : Vector) :
    Option (List (Vector × Vector)) :=
  if i < s.count then
    match readPoint s.points i with
    | some p =>
      let vEndPos := s.toScene p
      match drawLoop s (i + 1) vEndPos with
      | some rest => some ((vStartPos, vEndPos) :: rest)
      | none => none
    | none => none
  else some []
termination_by (s.count - i).toNat
decreasing_by omega

/-- The block "Draw the points" of `renderOpenGL`. -/
def drawPoints (s : OpenGLCanvas) : Option (List (Vector × Vector)) :=
  match readPoint s.points 0 with
  | some p0 => drawLoop s 1 (s.toScene p0)
  | none => none

/-- OpenGLCanvas::drawPointables. -/
def drawPointables (s : OpenGLCanvas) (frame : Frame) : List PointableGlyph :=
  frame.pointables.map fun pointable =>
    { colorIndex := ((pointable.id % 2 ^ 32) % 256).toNat
      vStartPos := s.toScene pointable.tipPosition
      vEndPos := (s.m_mtxFrameTransform.transformDirection pointable.direction).mul (-(1 / 4))
      fScale := s.m_fPointableRadius }

/-- OpenGLCanvas::setupScene, as far as it acts on the canvas: the aspect ratio
of the component is handed to the camera (the remaining calls only emit
OpenGL state). -/
def setupScene (width height : Int) (s : OpenGLCanvas) : OpenGLCanvas :=
  { s with m_camera := s.m_camera ++ [CameraCall.SetAspectRatio ((width : ℚ) / (height : ℚ))] }

/-- OpenGLCanvas::renderOpenGL: nothing when the message-manager lock was not
gained; otherwise the render-rate text, the scene set-up, the points, the
pointables of the last frame and the overlay with its capture step. -/
def renderOpenGL (lockWasGained : Bool) (renderFPS : String) (width height : Int)
    (glRenderer : Bool) (frame : Frame) (s : OpenGLCanvas) :
    Option (OpenGLCanvas × RenderOutput) :=
  if !lockWasGained then some (s, ⟨[], [], []⟩)
  else
    let s1 := setupScene width height { s with m_strRenderFPS := renderFPS }
    match drawPoints s1 with
    | none => none
    | some lines =>
      let glyphs := drawPointables s1 s1.m_lastFrame
      match renderOpenGL2D glRenderer frame s1 with
      | none => none
      | some (s2, overlay) => some (s2, ⟨lines, glyphs, overlay⟩)

end OpenGLCanvas

/-- An event the toolkit or the sensor delivers to the canvas, with the values
the handler obtains from its environment.  Handlers with an empty body
(`resized`, `paint`, `openGLContextClosing`, the canvas's `onInit`, `onConnect`
and `onDisconnect`) leave the canvas as it is and have no event here. -/
inductive CanvasEvent where
  | keyPressed (keyCode : Int)
  | mouseDown (pos : Int × Int)
  | mouseDrag (pos : Int × Int)
  | mouseWheelMove (deltaY : ℚ)
  | onFrame (frame : Frame) (updateFPS : String)
  | renderOpenGL (lockWasGained : Bool) (renderFPS : String) (width height : Int)
      (glRenderer : Bool) (frame : Frame)

/-- The canvas after one event; `none` when the handler subscripts outside the
array. -/
def step (K : KeyCodes) : CanvasEvent → OpenGLCanvas → Option OpenGLCanvas
  | CanvasEvent.keyPressed keyCode, s => some (OpenGLCanvas.keyPressed K keyCode s).2
  | CanvasEvent.mouseDown pos, s => some (s.mouseDown pos)
  | CanvasEvent.mouseDrag pos, s => some (s.mouseDrag pos)
  | CanvasEvent.mouseWheelMove deltaY, s => some (s.mouseWheelMove deltaY)
  | CanvasEvent.onFrame frame updateFPS, s => some (s.onFrame frame updateFPS)
  | CanvasEvent.renderOpenGL lock renderFPS width height glRenderer frame, s =>
    (s.renderOpenGL lock renderFPS width height glRenderer frame).map Prod.fst

/-- The canvas after a sequence of events, from a given canvas. -/
def run (K : KeyCodes) : List CanvasEvent → OpenGLCanvas → Option OpenGLCanvas
  | [], s => some s
  | e :: es, s =>
    match step K e s with
    | some s' => run K es s'
    | none => none

/-- A canvas the program can be in: the constructed canvas after some events. -/
def Reachable (K : KeyCodes) (s : OpenGLCanvas) : Prop :=
  ∃ es : List CanvasEvent, run K es OpenGLCanvas.init = some s

/-- Successive capture steps, one per frame of the list. -/
def captureAll : List Frame → OpenGLCanvas → Option OpenGLCanvas
  | [], s => some s
  | f :: fs, s =>
    match OpenGLCanvas.captureStep f s with
    | some s' => captureAll fs s'
    | none => none

/-! ## The transform of the specification and concrete inputs -/

/-- The map the specification gives for drawn points: a uniform scale by
0.0075 followed by the translation by (0, -2, 0.5). -/
def specTransform (p : Vector) : Vector :=
  ⟨(3 / 400) * p.x + 0, (3 / 400) * p.y + (-2), (3 / 400) * p.z + 1 / 2⟩

/-- Whether the first hand of the frame has exactly one finger, the condition
under which the capture step records a point. -/
def firstHandHasOneFinger (frame : Frame) : Bool :=
  match frame.hands with
  | [] => false
  | hand :: _ => hand.fingers.length == 1

/-- Key codes used for concrete evaluation (escape 27, arrows from 63232). -/
def demoKeys : KeyCodes := ⟨27, 63232, 63233, 63234, 63235⟩

/-- A finger with identifier 1 at (10, 200, 30). -/
def demoFinger : Pointable := ⟨1, ⟨10, 200, 30⟩, ⟨0, 0, -1⟩⟩

/-- A second finger, at (-40, 180, 5). -/
def otherFinger : Pointable := ⟨2, ⟨-40, 180, 5⟩, ⟨0, 0, -1⟩⟩

/-- A frame with one hand that has one finger. -/
def oneFingerFrame : Frame := ⟨[⟨[demoFinger]⟩], [], [], []⟩

/-- A frame with two hands: a fist first, then a hand with one finger.  The
frame reports exactly one fingertip. -/
def fistThenPointerFrame : Frame := ⟨[⟨[]⟩, ⟨[demoFinger]⟩], [], [], []⟩

/-- A frame with two hands of one finger each.  The frame reports two
fingertips. -/
def twoPointersFrame : Frame := ⟨[⟨[demoFinger]⟩, ⟨[otherFinger]⟩], [], [], []⟩

/-- A frame with one hand that has two fingers. -/
def twoFingerFrame : Frame := ⟨[⟨[demoFinger, otherFinger]⟩], [], [], []⟩

/-- A frame with one hand whose one finger is the second finger. -/
def otherFingerFrame : Frame := ⟨[⟨[otherFinger]⟩], [], [], []⟩

/-- The constructed canvas after the capture step on the one-finger frame. -/
def capturedOnce : OpenGLCanvas :=
  { OpenGLCanvas.init with
      points := Function.update OpenGLCanvas.init.points 0 demoFinger.tipPosition
      count := 1 }

/-- Two render passes, each with the lock and the graphics context obtained,
the first on the one-finger frame and the second on the frame of the second
finger. -/
def demoEvents : List CanvasEvent :=
  [CanvasEvent.renderOpenGL true "RenderFPS: 60.00" 1024 768 true oneFingerFrame,
   CanvasEvent.renderOpenGL true "RenderFPS: 60.00" 1024 768 true otherFingerFrame]

/-- The canvas after the first event of `demoEvents`. -/
def demoCanvas1 : OpenGLCanvas :=
  { OpenGLCanvas.setupScene 1024 768
      { OpenGLCanvas.init with m_strRenderFPS := "RenderFPS: 60.00" } with
      points := Function.update OpenGLCanvas.init.points 0 demoFinger.tipPosition
      count := 1 }

/-- The canvas after both events of `demoEvents`: two points recorded. -/
def demoCanvas : OpenGLCanvas :=
  { OpenGLCanvas.setupScene 1024 768
      { demoCanvas1 with m_strRenderFPS := "RenderFPS: 60.00" } with
      points := Function.update demoCanvas1.points 1 otherFinger.tipPosition
      count := 2 }

/-- What every event preserves: the frame scale and frame transform keep the
values the constructor gave them, and the count stays between 0 and the
capacity. -/
def Inv (s : OpenGLCanvas) : Prop :=
  s.m_fFrameScale = 3 / 400 ∧
  s.m_mtxFrameTransform = ⟨⟨1, 0, 0⟩, ⟨0, 1, 0⟩, ⟨0, 0, 1⟩, ⟨0, -2, 1 / 2⟩⟩ ∧
  0 ≤ s.count ∧ s.count ≤ (kCapacity : Int)

/-! ## Definitions for the later claims -/

/-- The position the capture step records for a frame: the tip of the leftmost
finger of the first hand (the zero vector for a frame without hands, which
the capture step never records). -/
def capturedTip (frame : Frame) : Vector :=
  match frame.hands with
  | [] => Vector.zero
  | hand :: _ => (leftmost hand.fingers).tipPosition

/-- The canvas with two points after the key p: paused. -/
def pausedCanvas : OpenGLCanvas := { demoCanvas with m_bPaused := true }

/-- The canvas with two points after the key h: help shown. -/
def helpCanvas : OpenGLCanvas := { demoCanvas with m_bShowHelp := true }

/-! ### The colour table of `initColors` -/

/-- The enumerator `kNumColors`, the size of `m_avColors`. -/
def kNumColors : Nat := 256

/-- The generation loop of `initColors`, for the remaining number of entries and
the current `fR`, `fG`, `fB` (with `fMin = 0`, `fMax = 1`): the entries it
writes, in index order. -/
def generateLoop (fStepSize : ℚ) : Nat → ℚ → ℚ → ℚ → List Vector
  | 0, _, _, _ => []
  | n + 1, fR, fG, fB =>
    ⟨fR, fG, min fB 1⟩ ::
      (if fR + fStepSize > 1 then
         (if fG + fStepSize > 1 then generateLoop fStepSize n 0 0 (fB + fStepSize)
          else generateLoop fStepSize n 0 (fG + fStepSize) fB)
       else generateLoop fStepSize n (fR + fStepSize) fG fB)

/-- The table after the generation loop; `fNumSteps` is the value the program
computes as the cube root of `kNumColors`. -/
def generateColors (fNumSteps : ℚ) : List Vector :=
  generateLoop ((1 - 0) / fNumSteps) kNumColors 0 0 0

/-- The index `i + (rng.nextInt() % (kNumColors - i))` in 32-bit unsigned
arithmetic, for the value `r` returned by `nextInt`. -/
def randIdx (i : Nat) (r : Int) : Nat :=
  (((i : Int) + (r % 2 ^ 32) % (((kNumColors : Int) - (i : Int)) % 2 ^ 32)) % 2 ^ 32).toNat

/-- One iteration of the shuffle loop: the entries at `i` and at `uiRandIdx` are
exchanged through `vSwapTemp`; `none` when an index is outside the table. -/
def swapStep (table : List Vector) (i uiRandIdx : Nat) : Option (List Vector) :=
  match table[i]?, table[uiRandIdx]? with
  | some vSwapTemp, some vRand => some ((table.set i vRand).set uiRandIdx vSwapTemp)
  | _, _ => none

/-- The shuffle loop of `initColors` from index `i`; `rng k` is the value the
`k`-th call of `nextInt` returns (one call per iteration). -/
def shuffleLoop (rng : Nat → Int) (i : Nat) (table : List Vector) : Option (List Vector) :=
  if i < kNumColors then
    match swapStep table i (randIdx i (rng i)) with
    | some table' => shuffleLoop rng (i + 1) table'
    | none => none
  else some table
termination_by kNumColors - i

/-- OpenGLCanvas::initColors: generation, then shuffle. -/
def initColors (fNumSteps : ℚ) (rng : Nat → Int) : Option (List Vector) :=
  shuffleLoop rng 0 (generateColors fNumSteps)

/-! # Theorems -/

open OpenGLCanvas


/-! ## Lemmas on the capture step -/

theorem leftmost_singleton (f : Pointable) : leftmost [f] = f := rfl

theorem writePoint_inside (points : Nat → Vector) (i : Int) (v : Vector)
    (h0 : 0 ≤ i) (h1 : i < (kCapacity : Int)) :
    writePoint points i v = some (Function.update points i.toNat v) := by
  unfold writePoint
  rw [if_pos ⟨h0, h1⟩]

theorem writePoint_outside (points : Nat → Vector) (i : Int) (v : Vector)
    (h : (kCapacity : Int) ≤ i) : writePoint points i v = none := by
  unfold writePoint
  rw [if_neg]
  intro hc
  omega

theorem captureStep_of_one (frame : Frame) (hand : Hand) (rest : List Hand)
    (finger : Pointable) (s : OpenGLCanvas)
    (hhands : frame.hands = hand :: rest) (hone : hand.fingers = [finger])
    (h0 : 0 ≤ s.count) (h1 : s.count < (kCapacity : Int)) :
    captureStep frame s =
      some { s with points := Function.update s.points s.count.toNat finger.tipPosition
                    count := s.count + 1 } := by
  unfold captureStep
  rw [hhands]
  simp only [hone, List.length_singleton, if_true, leftmost_singleton]
  rw [writePoint_inside _ _ _ h0 h1]

theorem captureStep_of_not_one (frame : Frame) (s : OpenGLCanvas)
    (h : firstHandHasOneFinger frame = false) : captureStep frame s = some s := by
  unfold captureStep
  unfold firstHandHasOneFinger at h
  cases hh : frame.hands with
  | nil => rfl
  | cons hand rest =>
    rw [hh] at h
    simp only [beq_eq_false_iff_ne, ne_eq] at h
    have h' : ¬ (1 = hand.fingers.length) := fun e => h e.symm
    simp only [h', if_false]

theorem firstHandHasOneFinger_iff (frame : Frame) :
    firstHandHasOneFinger frame = true ↔
      ∃ hand rest finger, frame.hands = hand :: rest ∧ hand.fingers = [finger] := by
  unfold firstHandHasOneFinger
  cases hh : frame.hands with
  | nil => simp
  | cons hand rest =>
    simp only [beq_iff_eq, List.cons.injEq]
    constructor
    · intro h
      obtain ⟨f, hf⟩ := List.length_eq_one.mp h
      exact ⟨hand, rest, f, ⟨rfl, rfl⟩, hf⟩
    · rintro ⟨hand', rest', f, ⟨rfl, rfl⟩, hf⟩
      rw [hf]
      rfl

/-- When the only fingertip of a frame sits on the first hand, the frame-level
finger list is that finger alone. -/
theorem fingers_of_single_on_first_hand (frame : Frame) (hand : Hand) (rest : List Hand)
    (finger : Pointable) (hhands : frame.hands = hand :: rest)
    (hone : hand.fingers = [finger]) (hframe : frame.fingers.length = 1) :
    frame.fingers = [finger] := by
  unfold Frame.fingers at hframe ⊢
  rw [hhands] at hframe ⊢
  simp only [List.map_cons, List.flatten_cons, hone, List.singleton_append, List.cons_append,
    List.length_cons, List.length_append, List.nil_append] at hframe ⊢
  have h1 : (List.map Hand.fingers rest).flatten = [] := by
    apply List.eq_nil_of_length_eq_zero
    omega
  have h2 : frame.strayFingers = [] := by
    apply List.eq_nil_of_length_eq_zero
    omega
  rw [h1, h2]
  rfl


/-! ## Point capture -/

/-- Claim C1, as amended: for every frame whose first hand has exactly one
finger and every prior count C below the capacity, the capture step returns,
the count becomes C+1 and entry C of the buffer is the tip position of that
finger: the leftmost (only) finger of the hand, which is also the leftmost
finger of the frame when the frame reports one fingertip in all. -/
theorem captureStep_first_hand_one_finger (frame : Frame) (hand : Hand) (rest : List Hand)
    (s : OpenGLCanvas) (C : Nat)
    (hhands : frame.hands = hand :: rest) (hone : hand.fingers.length = 1)
    (hcount : s.count = (C : Int)) (hcap : C < kCapacity) :
    ∃ s', captureStep frame s = some s' ∧
      s'.count = (C : Int) + 1 ∧
      s'.points C = (leftmost hand.fingers).tipPosition ∧
      hand.fingers = [leftmost hand.fingers] ∧
      (frame.fingers.length = 1 → leftmost frame.fingers = leftmost hand.fingers) := by
  obtain ⟨finger, hf⟩ := List.length_eq_one.mp hone
  have h0 : 0 ≤ s.count := by omega
  have h1 : s.count < (kCapacity : Int) := by omega
  refine ⟨_, captureStep_of_one frame hand rest finger s hhands hf h0 h1, ?_, ?_, ?_, ?_⟩
  · show s.count + 1 = (C : Int) + 1
    rw [hcount]
  · show Function.update s.points s.count.toNat finger.tipPosition C = _
    rw [hcount, Int.toNat_ofNat, Function.update_same, hf, leftmost_singleton]
  · rw [hf, leftmost_singleton]
  · intro hframe
    rw [fingers_of_single_on_first_hand frame hand rest finger hhands hf hframe, hf]

/-- Witness of C1 as amended: the one-finger frame on the constructed canvas. -/
theorem captureStep_first_hand_one_finger_witness :
    ∃ s', captureStep oneFingerFrame init = some s' ∧
      s'.count = ((0 : Nat) : Int) + 1 ∧
      s'.points 0 = (leftmost (⟨[demoFinger]⟩ : Hand).fingers).tipPosition ∧
      (⟨[demoFinger]⟩ : Hand).fingers = [leftmost (⟨[demoFinger]⟩ : Hand).fingers] ∧
      (oneFingerFrame.fingers.length = 1 →
        leftmost oneFingerFrame.fingers = leftmost (⟨[demoFinger]⟩ : Hand).fingers) :=
  captureStep_first_hand_one_finger oneFingerFrame ⟨[demoFinger]⟩ [] init 0 rfl rfl rfl
    (by decide)

/-- Counterexample to C1 as stated: a frame that reports exactly one fingertip,
at (10, 200, 30) on its second hand, with the count 0 below the capacity; the
capture step returns with the count still 0 and entry 0 still (0, 0, 0), so
the count did not become 1 and the fingertip was not recorded. -/
theorem capture_skips_fingertip_of_second_hand :
    fistThenPointerFrame.fingers.length = 1 ∧
    (leftmost fistThenPointerFrame.fingers).tipPosition = ⟨10, 200, 30⟩ ∧
    init.count = 0 ∧
    (captureStep fistThenPointerFrame init).map (fun s => (s.count, s.points 0)) =
      some (0, ⟨0, 0, 0⟩) ∧
    ¬ ∃ s', captureStep fistThenPointerFrame init = some s' ∧ s'.count = init.count + 1 := by
  refine ⟨by decide, by decide, by decide, by decide, ?_⟩
  rintro ⟨s', hs, hc⟩
  have h : (captureStep fistThenPointerFrame init).map (fun s => s.count) = some 0 := by decide
  rw [hs] at h
  simp only [Option.map_some', Option.some.injEq] at h
  rw [h] at hc
  revert hc
  decide

/-- Claim C4, as amended: for every frame whose first hand does not have exactly
one finger (no hands, or a first hand with zero or with two or more fingers),
the capture step returns the canvas as it was: the count and every buffer
entry are unchanged. -/
theorem captureStep_unchanged_unless_first_hand_one_finger (frame : Frame) (s : OpenGLCanvas)
    (h : ∀ hand rest, frame.hands = hand :: rest → hand.fingers.length ≠ 1) :
    captureStep frame s = some s := by
  apply captureStep_of_not_one
  cases hb : firstHandHasOneFinger frame with
  | false => rfl
  | true =>
    obtain ⟨hand, rest, finger, hh, hf⟩ := (firstHandHasOneFinger_iff frame).mp hb
    exact absurd (by rw [hf]; rfl) (h hand rest hh)

/-- Witness of C4 as amended: a frame whose only hand has two fingers. -/
theorem captureStep_unchanged_witness : captureStep twoFingerFrame init = some init :=
  captureStep_unchanged_unless_first_hand_one_finger twoFingerFrame init (by
    intro hand rest hh
    have : hand = ⟨[demoFinger, otherFinger]⟩ := by
      have h2 : twoFingerFrame.hands = [⟨[demoFinger, otherFinger]⟩] := rfl
      rw [h2] at hh
      exact (List.cons.inj hh).1.symm
    rw [this]
    decide)

/-- Counterexample to C4 as stated: a frame that reports two fingertips, one on
each of two hands; the capture step appends the tip of the first hand's finger,
so the count goes from 0 to 1 and entry 0 changes. -/
theorem capture_appends_on_two_fingertip_frame :
    twoPointersFrame.fingers.length = 2 ∧
    init.count = 0 ∧ init.points 0 = ⟨0, 0, 0⟩ ∧
    (captureStep twoPointersFrame init).map (fun s => (s.count, s.points 0)) =
      some (1, ⟨10, 200, 30⟩) := by
  refine ⟨by decide, by decide, by decide, by decide⟩


/-! ## The points loop of the render pass -/

theorem readPoint_inside (points : Nat → Vector) (i : Int)
    (h0 : 0 ≤ i) (h1 : i < (kCapacity : Int)) :
    readPoint points i = some (points i.toNat) := by
  unfold readPoint
  rw [if_pos ⟨h0, h1⟩]

theorem drawLoop_done (s : OpenGLCanvas) (i : Int) (v : Vector) (h : s.count ≤ i) :
    drawLoop s i v = some [] := by
  rw [drawLoop, if_neg (by omega)]

theorem drawLoop_next (s : OpenGLCanvas) (i : Int) (v : Vector)
    (h0 : 0 ≤ i) (h1 : i < s.count) (hcap : s.count ≤ (kCapacity : Int)) :
    drawLoop s i v =
      (drawLoop s (i + 1) (s.toScene (s.points i.toNat))).map
        (fun rest => (v, s.toScene (s.points i.toNat)) :: rest) := by
  rw [drawLoop, if_pos h1, readPoint_inside _ _ h0 (by omega)]
  dsimp only
  cases drawLoop s (i + 1) (s.toScene (s.points i.toNat)) <;> rfl

/-- The loop from index `i` returns, issues one segment per remaining index,
and its `j`-th segment ends at the transformed point `i + j` and starts where
the previous one ended. -/
theorem drawLoop_spec (s : OpenGLCanvas) (hcap : s.count ≤ (kCapacity : Int)) :
    ∀ (n : Nat) (i : Int) (v : Vector), 0 ≤ i → (s.count - i).toNat = n →
      ∃ segs, drawLoop s i v = some segs ∧ segs.length = n ∧
        ∀ j : Nat, j < n →
          segs[j]? = some
            (if j = 0 then v else s.toScene (s.points (i.toNat + j - 1)),
             s.toScene (s.points (i.toNat + j))) := by
  intro n
  induction n with
  | zero =>
    intro i v _ hn
    refine ⟨[], drawLoop_done s i v (by omega), rfl, ?_⟩
    intro j hj
    exact absurd hj (Nat.not_lt_zero j)
  | succ n ih =>
    intro i v h0 hn
    have h1 : i < s.count := by omega
    obtain ⟨rest, hrest, hlen, hseg⟩ :=
      ih (i + 1) (s.toScene (s.points i.toNat)) (by omega) (by omega)
    refine ⟨(v, s.toScene (s.points i.toNat)) :: rest, ?_, ?_, ?_⟩
    · rw [drawLoop_next s i v h0 h1 hcap, hrest]
      rfl
    · rw [List.length_cons, hlen]
    · intro j hj
      cases j with
      | zero => simp
      | succ j =>
        have hj' : j < n := by omega
        have e1 : (i + 1).toNat = i.toNat + 1 := by omega
        rw [List.getElem?_cons_succ, hseg j hj', e1]
        by_cases hz : j = 0
        · subst hz
          simp
        · have e2 : i.toNat + 1 + j - 1 = i.toNat + (j + 1) - 1 := by omega
          have e3 : i.toNat + 1 + j = i.toNat + (j + 1) := by omega
          simp only [hz, if_false, Nat.succ_ne_zero, e2, e3]

theorem drawPoints_eq_drawLoop (s : OpenGLCanvas) :
    drawPoints s = drawLoop s 1 (s.toScene (s.points 0)) := by
  unfold drawPoints
  rw [readPoint_inside _ _ (le_refl 0) (by decide)]
  rfl

/-- Claim C2: for every canvas with count N (at most the capacity), the points
loop of the render pass returns and issues exactly N-1 line segments when
N ≥ 1 and none when N = 0. -/
theorem drawPoints_segment_count (s : OpenGLCanvas) (N : Nat)
    (hcount : s.count = (N : Int)) (hcap : N ≤ kCapacity) :
    ∃ segs, drawPoints s = some segs ∧
      (1 ≤ N → (segs.length : Int) = (N : Int) - 1) ∧ (N = 0 → segs.length = 0) := by
  obtain ⟨segs, hsegs, hlen, _⟩ :=
    drawLoop_spec s (by omega) (s.count - 1).toNat 1 (s.toScene (s.points 0)) (by decide) rfl
  refine ⟨segs, ?_, ?_, ?_⟩
  · rw [drawPoints_eq_drawLoop, hsegs]
  · intro h1
    rw [hlen]
    omega
  · intro h0
    rw [hlen]
    omega


/-! ## What the operations do to the canvas -/

/-- A capture step that returns either left the canvas alone or wrote one
point at index `count`, inside the array, and incremented `count`. -/
theorem captureStep_some (frame : Frame) (s s' : OpenGLCanvas)
    (h : captureStep frame s = some s') :
    s' = s ∨ (0 ≤ s.count ∧ s.count < (kCapacity : Int) ∧
      ∃ v, s' = { s with points := Function.update s.points s.count.toNat v
                         count := s.count + 1 }) := by
  unfold captureStep at h
  cases hh : frame.hands with
  | nil =>
    rw [hh] at h
    exact Or.inl (Option.some.inj h).symm
  | cons hand rest =>
    rw [hh] at h
    dsimp only at h
    by_cases h1 : 1 = hand.fingers.length
    · rw [if_pos h1] at h
      unfold writePoint at h
      by_cases hin : 0 ≤ s.count ∧ s.count < (kCapacity : Int)
      · rw [if_pos hin] at h
        exact Or.inr ⟨hin.1, hin.2, _, (Option.some.inj h).symm⟩
      · rw [if_neg hin] at h
        exact absurd h (by simp)
    · rw [if_neg h1] at h
      exact Or.inl (Option.some.inj h).symm

/-- A render pass that returns left the canvas alone (lock not gained), or set
the render-rate text and the aspect ratio and then ran the capture step or
not (graphics context not obtained). -/
theorem renderOpenGL_some (lock : Bool) (fps : String) (w h : Int) (gl : Bool)
    (frame : Frame) (s s2 : OpenGLCanvas) (out : RenderOutput)
    (hr : renderOpenGL lock fps w h gl frame s = some (s2, out)) :
    s2 = s ∨ s2 = setupScene w h { s with m_strRenderFPS := fps } ∨
      captureStep frame (setupScene w h { s with m_strRenderFPS := fps }) = some s2 := by
  unfold renderOpenGL at hr
  cases lock with
  | false =>
    simp only [Bool.not_false, if_true, Option.some.injEq, Prod.mk.injEq] at hr
    exact Or.inl hr.1.symm
  | true =>
    simp only [Bool.not_true, Bool.false_eq_true, if_false] at hr
    cases hd : drawPoints (setupScene w h { s with m_strRenderFPS := fps }) with
    | none => rw [hd] at hr; exact absurd hr (by simp)
    | some segs =>
      rw [hd] at hr
      dsimp only at hr
      unfold renderOpenGL2D at hr
      cases gl with
      | false =>
        simp only [Bool.false_eq_true, if_false, Option.some.injEq, Prod.mk.injEq] at hr
        exact Or.inr (Or.inl hr.1.symm)
      | true =>
        simp only [if_true] at hr
        cases hc : captureStep frame (setupScene w h { s with m_strRenderFPS := fps }) with
        | none => rw [hc] at hr; exact absurd hr (by simp)
        | some s3 =>
          rw [hc] at hr
          simp only [Option.some.injEq, Prod.mk.injEq] at hr
          rw [← hr.1]
          exact Or.inr (Or.inr rfl)

/-- The capture step returns whenever the count is inside the array. -/
theorem captureStep_returns (frame : Frame) (s : OpenGLCanvas) (h0 : 0 ≤ s.count)
    (h1 : s.count < (kCapacity : Int)) : ∃ s', captureStep frame s = some s' := by
  cases hb : firstHandHasOneFinger frame with
  | false => exact ⟨s, captureStep_of_not_one frame s hb⟩
  | true =>
    obtain ⟨hand, rest, finger, hh, hf⟩ := (firstHandHasOneFinger_iff frame).mp hb
    exact ⟨_, captureStep_of_one frame hand rest finger s hh hf h0 h1⟩

/-- A render pass returns whenever the count is inside the array; with the lock
gained its points loop issues `count - 1` segments (none for a count of 0). -/
theorem renderOpenGL_returns (lock : Bool) (fps : String) (w h : Int) (gl : Bool)
    (frame : Frame) (s : OpenGLCanvas) (h0 : 0 ≤ s.count)
    (h1 : s.count < (kCapacity : Int)) :
    ∃ s2 out, renderOpenGL lock fps w h gl frame s = some (s2, out) ∧
      out.lines.length = if lock then (s.count - 1).toNat else 0 := by
  unfold renderOpenGL
  cases lock with
  | false => exact ⟨s, ⟨[], [], []⟩, rfl, rfl⟩
  | true =>
    simp only [Bool.not_true, Bool.false_eq_true, if_false, if_true]
    have hc1 : (setupScene w h { s with m_strRenderFPS := fps }).count = s.count := rfl
    obtain ⟨segs, hsegs, hlen, _⟩ :=
      drawLoop_spec (setupScene w h { s with m_strRenderFPS := fps })
        (by rw [hc1]; omega) (s.count - 1).toNat 1
        ((setupScene w h { s with m_strRenderFPS := fps }).toScene
          ((setupScene w h { s with m_strRenderFPS := fps }).points 0))
        (by decide) rfl
    rw [drawPoints_eq_drawLoop, hsegs]
    dsimp only
    unfold renderOpenGL2D
    cases gl with
    | false => exact ⟨_, _, rfl, hlen⟩
    | true =>
      obtain ⟨s3, hs3⟩ :=
        captureStep_returns frame (setupScene w h { s with m_strRenderFPS := fps }) h0 h1
      simp only [if_true]
      rw [hs3]
      exact ⟨_, _, rfl, hlen⟩

/-! ## Invariant of the canvas -/

theorem inv_init : Inv init := by
  refine ⟨rfl, rfl, by decide, by decide⟩

theorem inv_keyPressed (K : KeyCodes) (k : Int) (s : OpenGLCanvas) (hs : Inv s) :
    Inv (keyPressed K k s).2 := by
  obtain ⟨ha, hb, hc, hd⟩ := hs
  unfold keyPressed
  dsimp only
  have hz : (0 : Int) ≤ (kCapacity : Int) := by decide
  split_ifs
  all_goals first
    | exact ⟨ha, hb, hc, hd⟩
    | exact ⟨ha, hb, le_refl (0 : Int), hz⟩

theorem inv_captureStep (frame : Frame) (s s' : OpenGLCanvas) (hs : Inv s)
    (h : captureStep frame s = some s') : Inv s' := by
  obtain ⟨ha, hb, hc, hd⟩ := hs
  rcases captureStep_some frame s s' h with rfl | ⟨h0, h1, v, rfl⟩
  · exact ⟨ha, hb, hc, hd⟩
  · refine ⟨ha, hb, ?_, ?_⟩
    · show 0 ≤ s.count + 1
      omega
    · show s.count + 1 ≤ (kCapacity : Int)
      omega

theorem inv_step (K : KeyCodes) (e : CanvasEvent) (s s' : OpenGLCanvas) (hs : Inv s)
    (h : step K e s = some s') : Inv s' := by
  cases e with
  | keyPressed k =>
    rw [← Option.some.inj h]
    exact inv_keyPressed K k s hs
  | mouseDown pos => rw [← Option.some.inj h]; exact hs
  | mouseDrag pos => rw [← Option.some.inj h]; exact hs
  | mouseWheelMove d => rw [← Option.some.inj h]; exact hs
  | onFrame frame fps =>
    rw [← Option.some.inj h]
    unfold onFrame
    split_ifs
    · exact hs
    · exact hs
  | renderOpenGL lock fps w ht gl frame =>
    simp only [step] at h
    cases hr : renderOpenGL lock fps w ht gl frame s with
    | none => rw [hr] at h; exact absurd h (by simp)
    | some r =>
      obtain ⟨s2, out⟩ := r
      rw [hr] at h
      simp only [Option.map_some', Option.some.injEq] at h
      subst h
      rcases renderOpenGL_some lock fps w ht gl frame s s2 out hr with rfl | rfl | hc
      · exact hs
      · exact hs
      · exact inv_captureStep frame (setupScene w ht { s with m_strRenderFPS := fps }) s2 hs hc

theorem inv_run (K : KeyCodes) (es : List CanvasEvent) :
    ∀ s s', Inv s → run K es s = some s' → Inv s' := by
  induction es with
  | nil =>
    intro s s' hs h
    rw [← Option.some.inj h]
    exact hs
  | cons e es ih =>
    intro s s' hs h
    unfold run at h
    cases he : step K e s with
    | none => rw [he] at h; exact absurd h (by simp)
    | some s1 =>
      rw [he] at h
      exact ih s1 s' (inv_step K e s s1 hs he) h

theorem inv_of_reachable (K : KeyCodes) (s : OpenGLCanvas) (h : Reachable K s) : Inv s := by
  obtain ⟨es, hes⟩ := h
  exact inv_run K es init s inv_init hes

/-- With the constructor's scale and transform, the transform applied to a
stored point is the map of the specification. -/
theorem toScene_eq_specTransform (s : OpenGLCanvas) (hs : Inv s) (p : Vector) :
    s.toScene p = specTransform p := by
  obtain ⟨ha, hb, _, _⟩ := hs
  unfold toScene Matrix.transformPoint specTransform Vector.mul Vector.add
  rw [ha, hb]
  simp only [Vector.mk.injEq]
  refine ⟨by ring, by ring, by ring⟩

/-- Claim C3: in every canvas the program can reach, the points loop of the
render pass returns, and for every k with 1 ≤ k < count its k-th segment runs
from T(points[k-1]) to T(points[k]), where T(p) = 0.0075*p + (0, -2, 0.5) over
the rationals, the same map for every point and every reachable canvas; there
are count-1 segments and they follow the index order of the points. -/
theorem drawPoints_segments (K : KeyCodes) (s : OpenGLCanvas) (hs : Reachable K s) :
    ∃ segs, drawPoints s = some segs ∧ segs.length = (s.count - 1).toNat ∧
      ∀ k : Nat, 1 ≤ k → (k : Int) < s.count →
        segs[k - 1]? = some (specTransform (s.points (k - 1)), specTransform (s.points k)) := by
  have hinv := inv_of_reachable K s hs
  obtain ⟨segs, hsegs, hlen, hseg⟩ :=
    drawLoop_spec s hinv.2.2.2 (s.count - 1).toNat 1 (s.toScene (s.points 0)) (by decide) rfl
  refine ⟨segs, ?_, hlen, ?_⟩
  · rw [drawPoints_eq_drawLoop, hsegs]
  · intro k hk1 hk2
    rw [hseg (k - 1) (by omega)]
    have e1 : (1 : Int).toNat + (k - 1) = k := by
      have : (1 : Int).toNat = 1 := rfl
      omega
    rw [e1]
    by_cases hz : k - 1 = 0
    · rw [if_pos hz, hz, toScene_eq_specTransform s hinv, toScene_eq_specTransform s hinv]
    · rw [if_neg hz, toScene_eq_specTransform s hinv, toScene_eq_specTransform s hinv]


/-! ## Concrete runs -/

theorem renderOpenGL_fst (fps : String) (w h : Int) (gl : Bool) (frame : Frame)
    (s : OpenGLCanvas) (hcap : s.count ≤ (kCapacity : Int)) :
    (renderOpenGL true fps w h gl frame s).map Prod.fst =
      if gl then captureStep frame (setupScene w h { s with m_strRenderFPS := fps })
      else some (setupScene w h { s with m_strRenderFPS := fps }) := by
  unfold renderOpenGL
  simp only [Bool.not_true, Bool.false_eq_true, if_false]
  obtain ⟨segs, hsegs, _, _⟩ :=
    drawLoop_spec (setupScene w h { s with m_strRenderFPS := fps }) hcap (s.count - 1).toNat 1
      ((setupScene w h { s with m_strRenderFPS := fps }).toScene
        ((setupScene w h { s with m_strRenderFPS := fps }).points 0))
      (by decide) rfl
  rw [drawPoints_eq_drawLoop, hsegs]
  dsimp only
  unfold renderOpenGL2D
  cases gl with
  | false => rfl
  | true =>
    simp only [if_true]
    cases captureStep frame (setupScene w h { s with m_strRenderFPS := fps }) <;> rfl

theorem renderOpenGL_capture (fps : String) (w h : Int) (frame : Frame) (hand : Hand)
    (rest : List Hand) (finger : Pointable) (s : OpenGLCanvas)
    (hhands : frame.hands = hand :: rest) (hone : hand.fingers = [finger])
    (h0 : 0 ≤ s.count) (h1 : s.count < (kCapacity : Int)) :
    (renderOpenGL true fps w h true frame s).map Prod.fst =
      some { setupScene w h { s with m_strRenderFPS := fps } with
               points := Function.update s.points s.count.toNat finger.tipPosition
               count := s.count + 1 } := by
  rw [renderOpenGL_fst fps w h true frame s (by omega), if_pos rfl]
  exact captureStep_of_one frame hand rest finger
    (setupScene w h { s with m_strRenderFPS := fps }) hhands hone h0 h1

theorem step_demoEvents_first :
    step demoKeys (CanvasEvent.renderOpenGL true "RenderFPS: 60.00" 1024 768 true oneFingerFrame)
      init = some demoCanvas1 := by
  simp only [step]
  rw [renderOpenGL_capture "RenderFPS: 60.00" 1024 768 oneFingerFrame ⟨[demoFinger]⟩ []
    demoFinger init rfl rfl (by decide) (by decide)]
  rfl

theorem step_demoEvents_second :
    step demoKeys (CanvasEvent.renderOpenGL true "RenderFPS: 60.00" 1024 768 true otherFingerFrame)
      demoCanvas1 = some demoCanvas := by
  simp only [step]
  rw [renderOpenGL_capture "RenderFPS: 60.00" 1024 768 otherFingerFrame ⟨[otherFinger]⟩ []
    otherFinger demoCanvas1 rfl rfl (by decide) (by decide)]
  rfl

theorem run_demoEvents : run demoKeys demoEvents init = some demoCanvas := by
  unfold demoEvents
  rw [run, step_demoEvents_first]
  dsimp only
  rw [run, step_demoEvents_second]
  rfl

theorem reachable_demoCanvas : Reachable demoKeys demoCanvas :=
  ⟨demoEvents, run_demoEvents⟩


/-- Witness of C2: the canvas after two recorded points issues one segment. -/
theorem drawPoints_segment_count_witness :
    ∃ segs, drawPoints demoCanvas = some segs ∧
      (1 ≤ 2 → (segs.length : Int) = ((2 : Nat) : Int) - 1) ∧ (2 = 0 → segs.length = 0) :=
  drawPoints_segment_count demoCanvas 2 rfl (by decide)

/-- Witness of C3: the canvas reached by two render passes that each record a
point. -/
theorem drawPoints_segments_witness :
    ∃ segs, drawPoints demoCanvas = some segs ∧ segs.length = (demoCanvas.count - 1).toNat ∧
      ∀ k : Nat, 1 ≤ k → (k : Int) < demoCanvas.count →
        segs[k - 1]? =
          some (specTransform (demoCanvas.points (k - 1)), specTransform (demoCanvas.points k)) :=
  drawPoints_segments demoKeys demoCanvas reachable_demoCanvas

/-! ## Keys -/

theorem not_special (K : KeyCodes) (c : Int) (h : K.isSpecial c = false) :
    c ≠ K.escapeKey ∧ c ≠ K.upKey ∧ c ≠ K.downKey ∧ c ≠ K.leftKey ∧ c ≠ K.rightKey := by
  unfold KeyCodes.isSpecial at h
  simp only [Bool.or_eq_false_iff, beq_eq_false_iff_ne, ne_eq] at h
  obtain ⟨⟨⟨⟨h1, h2⟩, h3⟩, h4⟩, h5⟩ := h
  exact ⟨h1, h2, h3, h4, h5⟩

theorem keyPressed_clear (K : KeyCodes) (k : Int) (s : OpenGLCanvas)
    (hk : toupper k = 67) (hK : K.isSpecial 67 = false) :
    keyPressed K k s = (true, { s with count := 0 }) := by
  obtain ⟨h1, h2, h3, h4, h5⟩ := not_special K 67 hK
  unfold keyPressed
  simp only [hk, h1, h2, h3, h4, h5, if_false]
  rfl

theorem keyPressed_help (K : KeyCodes) (k : Int) (s : OpenGLCanvas)
    (hk : toupper k = 72) (hK : K.isSpecial 72 = false) :
    keyPressed K k s = (true, { s with m_bShowHelp := !s.m_bShowHelp }) := by
  obtain ⟨h1, h2, h3, h4, h5⟩ := not_special K 72 hK
  unfold keyPressed
  simp only [hk, h1, h2, h3, h4, h5, if_false]
  rfl

theorem keyPressed_pause (K : KeyCodes) (k : Int) (s : OpenGLCanvas)
    (hk : toupper k = 80) (hK : K.isSpecial 80 = false) :
    keyPressed K k s = (true, { s with m_bPaused := !s.m_bPaused }) := by
  obtain ⟨h1, h2, h3, h4, h5⟩ := not_special K 80 hK
  unfold keyPressed
  simp only [hk, h1, h2, h3, h4, h5, if_false]
  rfl

/-- The count after a key press is the count before, or 0 when the upper-cased
code is that of the letter C. -/
theorem keyPressed_count (K : KeyCodes) (k : Int) (s : OpenGLCanvas) :
    (keyPressed K k s).2.count = s.count ∨
      (toupper k = 67 ∧ (keyPressed K k s).2.count = 0) := by
  unfold keyPressed
  dsimp only
  split_ifs with h1 h2 h3 h4 h5 h6 h7 h8 h9
  all_goals first
    | exact Or.inl rfl
    | exact Or.inr ⟨h7, rfl⟩


/-! ## Removal of points -/

theorem captureStep_count_le (frame : Frame) (s s' : OpenGLCanvas)
    (h : captureStep frame s = some s') : s.count ≤ s'.count := by
  rcases captureStep_some frame s s' h with rfl | ⟨_, _, v, rfl⟩
  · exact le_refl _
  · show s.count ≤ s.count + 1
    omega

theorem step_returns (K : KeyCodes) (e : CanvasEvent) (s : OpenGLCanvas)
    (h0 : 0 ≤ s.count) (h1 : s.count < (kCapacity : Int)) : ∃ s', step K e s = some s' := by
  cases e with
  | keyPressed k => exact ⟨_, rfl⟩
  | mouseDown pos => exact ⟨_, rfl⟩
  | mouseDrag pos => exact ⟨_, rfl⟩
  | mouseWheelMove d => exact ⟨_, rfl⟩
  | onFrame frame fps => exact ⟨_, rfl⟩
  | renderOpenGL lock fps w ht gl frame =>
    obtain ⟨s2, out, hr, _⟩ := renderOpenGL_returns lock fps w ht gl frame s h0 h1
    refine ⟨s2, ?_⟩
    simp only [step]
    rw [hr]
    rfl

/-- Claim C5, as amended: the only operation that lowers the point count is the
key whose upper-cased code is the letter C, which sets it to 0.  For every
event handled by the canvas (key press, mouse input, frame delivery, render
pass) that returns, the count afterwards is at least the count before, or the
event is such a key press and the count afterwards is 0; a capture step that
returns never lowers the count; every event returns while the count is
inside the array; and on every canvas a key press whose upper-cased code is
the letter C (not one of the toolkit's symbolic key codes) returns true and
leaves the count at 0, every other field being as before. -/
theorem count_lowered_only_by_clear_key (K : KeyCodes) (e : CanvasEvent)
    (s s' : OpenGLCanvas) (h : step K e s = some s')
    (frame : Frame) (c c' : OpenGLCanvas) (hc : captureStep frame c = some c')
    (e2 : CanvasEvent) (d : OpenGLCanvas) (h0 : 0 ≤ d.count)
    (h1 : d.count < (kCapacity : Int))
    (k : Int) (t : OpenGLCanvas) (hk : toupper k = 67) (hK : K.isSpecial 67 = false) :
    (s.count ≤ s'.count ∨
      ((∃ k, e = CanvasEvent.keyPressed k ∧ toupper k = 67) ∧ s'.count = 0)) ∧
    c.count ≤ c'.count ∧
    (∃ d', step K e2 d = some d') ∧
    (keyPressed K k t).1 = true ∧
    (keyPressed K k t).2.count = 0 ∧
    step K (CanvasEvent.keyPressed k) t = some { t with count := 0 } := by
  obtain ⟨n1, n2, n3, n4, n5⟩ := not_special K 67 hK
  have hclear : keyPressed K k t = (true, { t with count := 0 }) := by
    unfold keyPressed
    simp only [hk, n1, n2, n3, n4, n5, if_false]
    rfl
  refine ⟨?_, captureStep_count_le frame c c' hc, step_returns K e2 d h0 h1, ?_, ?_, ?_⟩
  rotate_left
  · rw [hclear]
  · rw [hclear]
  · show some (keyPressed K k t).2 = some { t with count := 0 }
    rw [hclear]
  cases e with
  | keyPressed k =>
    rw [← Option.some.inj h]
    rcases keyPressed_count K k s with hk | ⟨hk, hz⟩
    · exact Or.inl (le_of_eq hk.symm)
    · exact Or.inr ⟨⟨k, rfl, hk⟩, hz⟩
  | mouseDown pos => rw [← Option.some.inj h]; exact Or.inl (le_refl _)
  | mouseDrag pos => rw [← Option.some.inj h]; exact Or.inl (le_refl _)
  | mouseWheelMove dy => rw [← Option.some.inj h]; exact Or.inl (le_refl _)
  | onFrame fr fps =>
    rw [← Option.some.inj h]
    unfold onFrame
    split_ifs
    · exact Or.inl (le_refl _)
    · exact Or.inl (le_refl _)
  | renderOpenGL lock fps w ht gl fr =>
    simp only [step] at h
    cases hr : renderOpenGL lock fps w ht gl fr s with
    | none => rw [hr] at h; exact absurd h (by simp)
    | some r =>
      obtain ⟨s2, out⟩ := r
      rw [hr] at h
      simp only [Option.map_some', Option.some.injEq] at h
      subst h
      rcases renderOpenGL_some lock fps w ht gl fr s s2 out hr with rfl | rfl | hcap
      · exact Or.inl (le_refl _)
      · exact Or.inl (le_refl _)
      · exact Or.inl
          (captureStep_count_le fr (setupScene w ht { s with m_strRenderFPS := fps }) s2 hcap)

/-- Witness of C5 as amended: the key c (code 99) as the event on the canvas
with two points, the capture step on the constructed canvas, a render pass
on the canvas with two points, and the key c on the canvas with one point. -/
theorem count_lowered_only_by_clear_key_witness :
    (demoCanvas.count ≤ (keyPressed demoKeys 99 demoCanvas).2.count ∨
      ((∃ k, CanvasEvent.keyPressed 99 = CanvasEvent.keyPressed k ∧ toupper k = 67) ∧
        (keyPressed demoKeys 99 demoCanvas).2.count = 0)) ∧
    init.count ≤ capturedOnce.count ∧
    (∃ d', step demoKeys
        (CanvasEvent.renderOpenGL true "RenderFPS: 60.00" 1024 768 true oneFingerFrame)
        demoCanvas = some d') ∧
    (keyPressed demoKeys 99 capturedOnce).1 = true ∧
    (keyPressed demoKeys 99 capturedOnce).2.count = 0 ∧
    step demoKeys (CanvasEvent.keyPressed 99) capturedOnce =
      some { capturedOnce with count := 0 } :=
  count_lowered_only_by_clear_key demoKeys (CanvasEvent.keyPressed 99)
    demoCanvas (keyPressed demoKeys 99 demoCanvas).2 rfl
    oneFingerFrame init capturedOnce
    (captureStep_of_one oneFingerFrame ⟨[demoFinger]⟩ [] demoFinger init rfl rfl
      (by decide) (by decide))
    (CanvasEvent.renderOpenGL true "RenderFPS: 60.00" 1024 768 true oneFingerFrame)
    demoCanvas (by decide) (by decide)
    99 capturedOnce (by decide) (by decide)

/-- Counterexample to C5 as stated: the capture step on a one-finger frame
takes the constructed canvas to a count of 1, and the key c (code 99) then
takes the count from 1 to 0, returning true. -/
theorem clear_key_lowers_count :
    captureStep oneFingerFrame init = some capturedOnce ∧
    capturedOnce.count = 1 ∧
    (keyPressed demoKeys 99 capturedOnce).2.count = 0 ∧
    (keyPressed demoKeys 99 capturedOnce).2.count < capturedOnce.count := by
  refine ⟨?_, rfl, by decide, by decide⟩
  exact captureStep_of_one oneFingerFrame ⟨[demoFinger]⟩ [] demoFinger init rfl rfl
    (by decide) (by decide)

/-- Claim C6: for every canvas, keyPressed with the code of c or C (neither
being one of the toolkit's symbolic key codes) returns true and leaves the
count at 0, so the points loop of the next render pass issues no line
segment: `drawPoints` gives the empty list and so does every render pass. -/
theorem keyPressed_C_clears_canvas (K : KeyCodes) (s : OpenGLCanvas) (key : Int)
    (hkey : key = 99 ∨ key = 67) (hK : K.isSpecial 67 = false)
    (lock : Bool) (fps : String) (w h : Int) (gl : Bool) (frame : Frame) :
    (keyPressed K key s).1 = true ∧
    (keyPressed K key s).2.count = 0 ∧
    drawPoints (keyPressed K key s).2 = some [] ∧
    ∃ s2 out, renderOpenGL lock fps w h gl frame (keyPressed K key s).2 = some (s2, out) ∧
      out.lines = [] := by
  have hk : toupper key = 67 := by
    rcases hkey with rfl | rfl <;> decide
  have h01 : (0 : Int) ≤ 1 := by decide
  have h0c : (0 : Int) < (kCapacity : Int) := by decide
  rw [keyPressed_clear K key s hk hK]
  refine ⟨rfl, rfl, ?_, ?_⟩
  · rw [drawPoints_eq_drawLoop]
    exact drawLoop_done _ _ _ h01
  · obtain ⟨s2, out, hr, hlen⟩ :=
      renderOpenGL_returns lock fps w h gl frame { s with count := 0 } (le_refl 0) h0c
    refine ⟨s2, out, hr, ?_⟩
    apply List.eq_nil_of_length_eq_zero
    rw [hlen]
    split_ifs <;> rfl

/-- Witness of C6: the key c on the canvas that holds two points. -/
theorem keyPressed_C_clears_canvas_witness :
    (keyPressed demoKeys 99 demoCanvas).1 = true ∧
    (keyPressed demoKeys 99 demoCanvas).2.count = 0 ∧
    drawPoints (keyPressed demoKeys 99 demoCanvas).2 = some [] ∧
    ∃ s2 out, renderOpenGL true "RenderFPS: 60.00" 1024 768 true oneFingerFrame
        (keyPressed demoKeys 99 demoCanvas).2 = some (s2, out) ∧ out.lines = [] :=
  keyPressed_C_clears_canvas demoKeys demoCanvas 99 (Or.inl rfl) (by decide)
    true "RenderFPS: 60.00" 1024 768 true oneFingerFrame


/-! ## The missing bound -/

theorem captureStep_of_one_flag (frame : Frame) (s : OpenGLCanvas)
    (hf : firstHandHasOneFinger frame = true)
    (h0 : 0 ≤ s.count) (h1 : s.count < (kCapacity : Int)) :
    ∃ s', captureStep frame s = some s' ∧ s'.count = s.count + 1 := by
  obtain ⟨hand, rest, finger, hh, hone⟩ := (firstHandHasOneFinger_iff frame).mp hf
  exact ⟨_, captureStep_of_one frame hand rest finger s hh hone h0 h1, rfl⟩

/-- On a frame whose first hand has one finger the capture step subscripts the
array at `count` whatever the count is: at or above the capacity the write is
outside the array. -/
theorem captureStep_outside (frame : Frame) (s : OpenGLCanvas)
    (hf : firstHandHasOneFinger frame = true) (h : (kCapacity : Int) ≤ s.count) :
    captureStep frame s = none := by
  obtain ⟨hand, rest, finger, hh, hone⟩ := (firstHandHasOneFinger_iff frame).mp hf
  unfold captureStep
  rw [hh]
  simp only [hone, List.length_singleton, if_true]
  rw [writePoint_outside _ _ _ h]

theorem captureAll_count (frames : List Frame) :
    ∀ s : OpenGLCanvas, (∀ f ∈ frames, firstHandHasOneFinger f = true) → 0 ≤ s.count →
      s.count + (frames.length : Int) ≤ (kCapacity : Int) →
      ∃ s', captureAll frames s = some s' ∧ s'.count = s.count + (frames.length : Int) := by
  induction frames with
  | nil =>
    intro s _ _ _
    exact ⟨s, rfl, by simp⟩
  | cons f fs ih =>
    intro s hall h0 hcap
    rw [List.length_cons] at hcap
    push_cast at hcap
    obtain ⟨s1, hs1, hc1⟩ :=
      captureStep_of_one_flag f s (hall f (List.mem_cons_self f fs)) h0 (by omega)
    obtain ⟨s2, hs2, hc2⟩ :=
      ih s1 (fun g hg => hall g (List.mem_cons_of_mem f hg)) (by omega) (by omega)
    refine ⟨s2, ?_, ?_⟩
    · rw [captureAll, hs1]
      exact hs2
    · rw [hc2, hc1, List.length_cons]
      push_cast
      omega

/-- Claim C7: the capture step does not compare the count with the capacity.
From the constructed canvas, the capture steps on any 1,000,000 frames whose
first hand has one finger all return and reach a count of 1,000,000; on that
canvas a write at index `count` is outside the array, and the capture step on
one more such frame attempts it (the subscript yields `none`) rather than
returning the canvas unchanged. -/
theorem capture_overflows_at_capacity (frames : List Frame)
    (hall : ∀ f ∈ frames, firstHandHasOneFinger f = true)
    (hlen : frames.length = 1000000)
    (next : Frame) (hnext : firstHandHasOneFinger next = true) :
    ∃ s, captureAll frames init = some s ∧ s.count = 1000000 ∧
      (∀ v, writePoint s.points s.count v = none) ∧
      captureStep next s = none ∧ captureStep next s ≠ some s := by
  have hi : init.count = 0 := rfl
  obtain ⟨s, hs, hc⟩ := captureAll_count frames init hall (by rw [hi])
    (by rw [hi, hlen]; decide)
  have hc' : s.count = 1000000 := by
    rw [hc, hi, hlen]
    rfl
  have hge : (kCapacity : Int) ≤ s.count := by
    rw [hc']
    decide
  have hnone := captureStep_outside next s hnext hge
  refine ⟨s, hs, hc', fun v => writePoint_outside _ _ v hge, hnone, ?_⟩
  rw [hnone]
  exact fun h => Option.noConfusion h

/-- Witness of C7: one million deliveries of the one-finger frame, then the
frame of the second finger. -/
theorem capture_overflows_at_capacity_witness :
    ∃ s, captureAll (List.replicate 1000000 oneFingerFrame) init = some s ∧ s.count = 1000000 ∧
      (∀ v, writePoint s.points s.count v = none) ∧
      captureStep otherFingerFrame s = none ∧ captureStep otherFingerFrame s ≠ some s :=
  capture_overflows_at_capacity (List.replicate 1000000 oneFingerFrame)
    (fun f hf => by rw [List.eq_of_mem_replicate hf]; rfl)
    (List.length_replicate 1000000 oneFingerFrame) otherFingerFrame rfl

/-! ## Toggle keys -/

theorem toggle_help_twice (s : OpenGLCanvas) :
    { ({ s with m_bShowHelp := !s.m_bShowHelp } : OpenGLCanvas) with
        m_bShowHelp := !(!s.m_bShowHelp) } = s := by
  cases s
  simp only [Bool.not_not]

theorem toggle_pause_twice (s : OpenGLCanvas) :
    { ({ s with m_bPaused := !s.m_bPaused } : OpenGLCanvas) with
        m_bPaused := !(!s.m_bPaused) } = s := by
  cases s
  simp only [Bool.not_not]

/-- Claim C8: with the letter codes H and P not among the toolkit's symbolic key
codes, keyPressed with h (104) or H (72) returns true and negates the
show-help flag, leaving every other field as it was; keyPressed with p (112)
or P (80) returns true and negates the paused flag, leaving every other field
as it was; and pressing the same one of these keys twice gives back the
original canvas. -/
theorem keyPressed_toggles (K : KeyCodes) (s : OpenGLCanvas)
    (hH : K.isSpecial 72 = false) (hP : K.isSpecial 80 = false) :
    keyPressed K 104 s = (true, { s with m_bShowHelp := !s.m_bShowHelp }) ∧
    keyPressed K 72 s = (true, { s with m_bShowHelp := !s.m_bShowHelp }) ∧
    keyPressed K 112 s = (true, { s with m_bPaused := !s.m_bPaused }) ∧
    keyPressed K 80 s = (true, { s with m_bPaused := !s.m_bPaused }) ∧
    (keyPressed K 104 (keyPressed K 104 s).2).2 = s ∧
    (keyPressed K 72 (keyPressed K 72 s).2).2 = s ∧
    (keyPressed K 112 (keyPressed K 112 s).2).2 = s ∧
    (keyPressed K 80 (keyPressed K 80 s).2).2 = s := by
  have h1 : toupper 104 = 72 := by decide
  have h2 : toupper 72 = 72 := by decide
  have h3 : toupper 112 = 80 := by decide
  have h4 : toupper 80 = 80 := by decide
  refine ⟨keyPressed_help K 104 s h1 hH, keyPressed_help K 72 s h2 hH,
    keyPressed_pause K 112 s h3 hP, keyPressed_pause K 80 s h4 hP, ?_, ?_, ?_, ?_⟩
  · rw [keyPressed_help K 104 s h1 hH, keyPressed_help K 104 _ h1 hH]
    exact toggle_help_twice s
  · rw [keyPressed_help K 72 s h2 hH, keyPressed_help K 72 _ h2 hH]
    exact toggle_help_twice s
  · rw [keyPressed_pause K 112 s h3 hP, keyPressed_pause K 112 _ h3 hP]
    exact toggle_pause_twice s
  · rw [keyPressed_pause K 80 s h4 hP, keyPressed_pause K 80 _ h4 hP]
    exact toggle_pause_twice s

/-- Witness of C8: the demonstration key codes and the canvas with two points. -/
theorem keyPressed_toggles_witness :
    keyPressed demoKeys 104 demoCanvas =
      (true, { demoCanvas with m_bShowHelp := !demoCanvas.m_bShowHelp }) ∧
    keyPressed demoKeys 72 demoCanvas =
      (true, { demoCanvas with m_bShowHelp := !demoCanvas.m_bShowHelp }) ∧
    keyPressed demoKeys 112 demoCanvas =
      (true, { demoCanvas with m_bPaused := !demoCanvas.m_bPaused }) ∧
    keyPressed demoKeys 80 demoCanvas =
      (true, { demoCanvas with m_bPaused := !demoCanvas.m_bPaused }) ∧
    (keyPressed demoKeys 104 (keyPressed demoKeys 104 demoCanvas).2).2 = demoCanvas ∧
    (keyPressed demoKeys 72 (keyPressed demoKeys 72 demoCanvas).2).2 = demoCanvas ∧
    (keyPressed demoKeys 112 (keyPressed demoKeys 112 demoCanvas).2).2 = demoCanvas ∧
    (keyPressed demoKeys 80 (keyPressed demoKeys 80 demoCanvas).2).2 = demoCanvas :=
  keyPressed_toggles demoKeys demoCanvas (by decide) (by decide)

/-! ## Gestures -/

/-- Claim C9: after SampleListener::onConnect on a controller with no gesture
type enabled, the enabled gesture types are exactly circle, swipe, key tap
and screen tap; each of the other callbacks of the listener (onInit,
onDisconnect, onExit, onFrame, onFocusGained, onFocusLost) returns the
controller as it received it, so it enables or disables no gesture type. -/
theorem onConnect_enables_four_gestures (c : Controller)
    (hnone : ∀ t, c.enabled t = false) :
    (∀ t, (SampleListener.onConnect c).1.enabled t = true ↔
      (t = GestureType.TYPE_CIRCLE ∨ t = GestureType.TYPE_SWIPE ∨
       t = GestureType.TYPE_KEY_TAP ∨ t = GestureType.TYPE_SCREEN_TAP)) ∧
    (SampleListener.onInit c).1 = c ∧
    (SampleListener.onDisconnect c).1 = c ∧
    (SampleListener.onExit c).1 = c ∧
    (SampleListener.onFrame c).1 = c ∧
    (SampleListener.onFocusGained c).1 = c ∧
    (SampleListener.onFocusLost c).1 = c := by
  refine ⟨?_, rfl, rfl, rfl, rfl, rfl, rfl⟩
  intro t
  unfold SampleListener.onConnect Controller.enableGesture
  cases t <;> simp [Function.update, hnone]

/-- Witness of C9: a controller with no gesture type enabled, holding the
one-finger frame. -/
theorem onConnect_enables_four_gestures_witness :
    (∀ t, (SampleListener.onConnect ⟨fun _ => false, oneFingerFrame⟩).1.enabled t = true ↔
      (t = GestureType.TYPE_CIRCLE ∨ t = GestureType.TYPE_SWIPE ∨
       t = GestureType.TYPE_KEY_TAP ∨ t = GestureType.TYPE_SCREEN_TAP)) ∧
    (SampleListener.onInit ⟨fun _ => false, oneFingerFrame⟩).1 = ⟨fun _ => false, oneFingerFrame⟩ ∧
    (SampleListener.onDisconnect ⟨fun _ => false, oneFingerFrame⟩).1 =
      ⟨fun _ => false, oneFingerFrame⟩ ∧
    (SampleListener.onExit ⟨fun _ => false, oneFingerFrame⟩).1 = ⟨fun _ => false, oneFingerFrame⟩ ∧
    (SampleListener.onFrame ⟨fun _ => false, oneFingerFrame⟩).1 = ⟨fun _ => false, oneFingerFrame⟩ ∧
    (SampleListener.onFocusGained ⟨fun _ => false, oneFingerFrame⟩).1 =
      ⟨fun _ => false, oneFingerFrame⟩ ∧
    (SampleListener.onFocusLost ⟨fun _ => false, oneFingerFrame⟩).1 =
      ⟨fun _ => false, oneFingerFrame⟩ :=
  onConnect_enables_four_gestures ⟨fun _ => false, oneFingerFrame⟩ (fun _ => rfl)

/-! ## Key dispatch -/

/-- Claim C10: keyPressed returns true exactly when the upper-cased key code is
the escape, up, down, left or right key code, the space (32) or one of the
letters C (67), H (72), P (80); for every other key code it returns false and
the canvas afterwards is the canvas before, in every field. -/
theorem keyPressed_dispatch (K : KeyCodes) (keyCode : Int) (s : OpenGLCanvas) :
    ((keyPressed K keyCode s).1 = true ↔
      (toupper keyCode = K.escapeKey ∨ toupper keyCode = K.upKey ∨
       toupper keyCode = K.downKey ∨ toupper keyCode = K.leftKey ∨
       toupper keyCode = K.rightKey ∨ toupper keyCode = 32 ∨ toupper keyCode = 67 ∨
       toupper keyCode = 72 ∨ toupper keyCode = 80)) ∧
    ((keyPressed K keyCode s).1 = false → (keyPressed K keyCode s).2 = s) := by
  unfold keyPressed
  dsimp only
  split_ifs with h1 h2 h3 h4 h5 h6 h7 h8 h9 <;> simp [*]

/-- Witness of C10: the key x (code 120) on the canvas with two points returns
false and leaves the canvas as it was. -/
theorem keyPressed_dispatch_witness :
    (keyPressed demoKeys 120 demoCanvas).1 = false ∧
    (keyPressed demoKeys 120 demoCanvas).2 = demoCanvas :=
  ⟨by decide, (keyPressed_dispatch demoKeys 120 demoCanvas).2 (by decide)⟩


/-! ## Frame delivery and pause -/

/-- Claim C11: for every canvas with the paused flag set, onFrame returns the
canvas as it was (the stored last frame, the update-rate text and the number
of repaints requested are unchanged); for every canvas with the paused flag
clear, after onFrame the stored last frame is the controller's current frame
and exactly one more repaint has been requested. -/
theorem onFrame_pause_semantics (frame : Frame) (updateFPS : String) (s : OpenGLCanvas) :
    (s.m_bPaused = true → onFrame frame updateFPS s = s) ∧
    (s.m_bPaused = false →
      (onFrame frame updateFPS s).m_lastFrame = frame ∧
      (onFrame frame updateFPS s).repaintsRequested = s.repaintsRequested + 1) := by
  constructor
  · intro hp
    unfold onFrame
    rw [hp]
    rfl
  · intro hp
    unfold onFrame
    rw [hp]
    exact ⟨rfl, rfl⟩

/-- Witness of C11: the one-finger frame delivered to the paused canvas and to
the canvas with two points. -/
theorem onFrame_pause_semantics_witness :
    onFrame oneFingerFrame "UpdateFPS: 60.00" pausedCanvas = pausedCanvas ∧
    (onFrame oneFingerFrame "UpdateFPS: 60.00" demoCanvas).m_lastFrame = oneFingerFrame ∧
    (onFrame oneFingerFrame "UpdateFPS: 60.00" demoCanvas).repaintsRequested =
      demoCanvas.repaintsRequested + 1 :=
  ⟨(onFrame_pause_semantics oneFingerFrame "UpdateFPS: 60.00" pausedCanvas).1 rfl,
   (onFrame_pause_semantics oneFingerFrame "UpdateFPS: 60.00" demoCanvas).2 rfl⟩

/-! ## Failed graphics context -/

/-- Claim C12: when no 2D graphics context is obtained, renderOpenGL2D returns
the canvas as it was with no text call, for every canvas and every frame (a
frame with exactly one fingertip included): no overlay text is drawn and the
count and every buffer entry are unchanged.  The same holds for the whole
render pass in which the context is not obtained. -/
theorem renderOpenGL2D_without_context (frame : Frame) (s : OpenGLCanvas)
    (lock : Bool) (fps : String) (w h : Int) (hcap : s.count ≤ (kCapacity : Int)) :
    renderOpenGL2D false frame s = some (s, []) ∧
    ∃ s2 out, renderOpenGL lock fps w h false frame s = some (s2, out) ∧
      out.overlay = [] ∧ s2.count = s.count ∧ s2.points = s.points := by
  refine ⟨rfl, ?_⟩
  unfold renderOpenGL
  cases lock with
  | false => exact ⟨s, ⟨[], [], []⟩, rfl, rfl, rfl, rfl⟩
  | true =>
    simp only [Bool.not_true, Bool.false_eq_true, if_false]
    obtain ⟨segs, hsegs, _, _⟩ :=
      drawLoop_spec (setupScene w h { s with m_strRenderFPS := fps }) hcap (s.count - 1).toNat 1
        ((setupScene w h { s with m_strRenderFPS := fps }).toScene
          ((setupScene w h { s with m_strRenderFPS := fps }).points 0))
        (by decide) rfl
    rw [drawPoints_eq_drawLoop, hsegs]
    exact ⟨_, _, rfl, rfl, rfl, rfl⟩

/-- Witness of C12: the one-finger frame on the canvas with two points. -/
theorem renderOpenGL2D_without_context_witness :
    renderOpenGL2D false oneFingerFrame demoCanvas = some (demoCanvas, []) ∧
    ∃ s2 out, renderOpenGL true "RenderFPS: 60.00" 1024 768 false oneFingerFrame demoCanvas =
        some (s2, out) ∧
      out.overlay = [] ∧ s2.count = demoCanvas.count ∧ s2.points = demoCanvas.points :=
  renderOpenGL2D_without_context oneFingerFrame demoCanvas true "RenderFPS: 60.00" 1024 768
    (by decide)

/-! ## Recorded points are kept -/

theorem capturedTip_of_one (frame : Frame) (hand : Hand) (rest : List Hand)
    (finger : Pointable) (hhands : frame.hands = hand :: rest)
    (hone : hand.fingers = [finger]) : capturedTip frame = finger.tipPosition := by
  unfold capturedTip
  rw [hhands]
  simp only [hone, leftmost_singleton]

/-- On a frame whose first hand has one finger, with the count inside the
array, the capture step writes the tip at index `count` and increments. -/
theorem captureStep_capturing (frame : Frame) (s : OpenGLCanvas)
    (hf : firstHandHasOneFinger frame = true)
    (h0 : 0 ≤ s.count) (h1 : s.count < (kCapacity : Int)) :
    captureStep frame s =
      some { s with points := Function.update s.points s.count.toNat (capturedTip frame)
                    count := s.count + 1 } := by
  obtain ⟨hand, rest, finger, hh, hone⟩ := (firstHandHasOneFinger_iff frame).mp hf
  rw [capturedTip_of_one frame hand rest finger hh hone]
  exact captureStep_of_one frame hand rest finger s hh hone h0 h1

/-- A capture step that returns leaves every entry below the count as it was. -/
theorem captureStep_keeps_below (frame : Frame) (s s' : OpenGLCanvas)
    (h : captureStep frame s = some s') (i : Nat) (hi : (i : Int) < s.count) :
    s'.points i = s.points i := by
  rcases captureStep_some frame s s' h with rfl | ⟨h0, _, v, rfl⟩
  · rfl
  · show Function.update s.points s.count.toNat v i = s.points i
    rw [Function.update_noteq]
    omega

theorem captureAll_points (frames : List Frame) :
    ∀ (s : OpenGLCanvas) (c : Nat), s.count = (c : Int) →
      (∀ f ∈ frames, firstHandHasOneFinger f = true) → c + frames.length ≤ kCapacity →
      ∃ s', captureAll frames s = some s' ∧ s'.count = ((c + frames.length : Nat) : Int) ∧
        (∀ i, i < c → s'.points i = s.points i) ∧
        ∀ j f, frames[j]? = some f → s'.points (c + j) = capturedTip f := by
  induction frames with
  | nil =>
    intro s c hc _ _
    refine ⟨s, rfl, by simpa using hc, fun i _ => rfl, ?_⟩
    intro j f hj
    simp at hj
  | cons f fs ih =>
    intro s c hc hall hcap
    rw [List.length_cons] at hcap
    have h0 : 0 ≤ s.count := by omega
    have h1 : s.count < (kCapacity : Int) := by omega
    have hstep := captureStep_capturing f s (hall f (List.mem_cons_self f fs)) h0 h1
    have hc1 : ({ s with points := Function.update s.points s.count.toNat (capturedTip f)
                         count := s.count + 1 } : OpenGLCanvas).count = ((c + 1 : Nat) : Int) := by
      show s.count + 1 = ((c + 1 : Nat) : Int)
      omega
    obtain ⟨s', hs', hcount', hbelow, htips⟩ :=
      ih _ (c + 1) hc1 (fun g hg => hall g (List.mem_cons_of_mem f hg)) (by omega)
    have hidx : s.count.toNat = c := by omega
    refine ⟨s', ?_, ?_, ?_, ?_⟩
    · rw [captureAll, hstep]
      exact hs'
    · rw [hcount', List.length_cons]
      congr 1
      omega
    · intro i hi
      rw [hbelow i (by omega)]
      show Function.update s.points s.count.toNat (capturedTip f) i = s.points i
      rw [Function.update_noteq]
      omega
    · intro j g hj
      cases j with
      | zero =>
        simp only [List.getElem?_cons_zero, Option.some.injEq] at hj
        subst hj
        rw [Nat.add_zero, hbelow c (by omega)]
        show Function.update s.points s.count.toNat (capturedTip f) c = capturedTip f
        rw [hidx, Function.update_same]
      | succ j =>
        rw [List.getElem?_cons_succ] at hj
        have := htips j g hj
        rw [show c + (j + 1) = c + 1 + j by omega]
        exact this

/-- Claim C13: for every canvas with count C at most the capacity and every
frame, the capture step either returns with every buffer entry below C as it
was, or C is the capacity, the frame is a capturing one and the write at
index C is outside the array, so that no entry of the buffer is written; and
after the capture steps on k capturing frames (first hand with one finger,
k at most the capacity) from the constructed canvas the count is k and entry
j of the buffer is the tip recorded for the j-th frame, for every j below k. -/
theorem capture_keeps_recorded_points (frame : Frame) (s : OpenGLCanvas) (C : Nat)
    (hcount : s.count = (C : Int)) (hcap : C ≤ kCapacity)
    (frames : List Frame) (hall : ∀ f ∈ frames, firstHandHasOneFinger f = true)
    (hk : frames.length ≤ kCapacity) :
    ((∃ s', captureStep frame s = some s' ∧ ∀ i, i < C → s'.points i = s.points i) ∨
     (C = kCapacity ∧ firstHandHasOneFinger frame = true ∧ captureStep frame s = none ∧
       ∀ v, writePoint s.points s.count v = none)) ∧
    ∃ sk, captureAll frames init = some sk ∧ sk.count = (frames.length : Int) ∧
      ∀ j f, frames[j]? = some f → sk.points j = capturedTip f := by
  constructor
  · by_cases hlt : C < kCapacity
    · obtain ⟨s', hs'⟩ := captureStep_returns frame s (by omega) (by omega)
      exact Or.inl ⟨s', hs', fun i hi => captureStep_keeps_below frame s s' hs' i (by omega)⟩
    · have hC : C = kCapacity := by omega
      cases hf : firstHandHasOneFinger frame with
      | false =>
        exact Or.inl ⟨s, captureStep_of_not_one frame s hf, fun _ _ => rfl⟩
      | true =>
        have hge : (kCapacity : Int) ≤ s.count := by omega
        exact Or.inr ⟨hC, rfl, captureStep_outside frame s hf hge,
          fun v => writePoint_outside _ _ v hge⟩
  · obtain ⟨sk, hsk, hcnt, _, htips⟩ :=
      captureAll_points frames init 0 rfl hall (by omega)
    refine ⟨sk, hsk, ?_, ?_⟩
    · rw [hcnt]
      congr 1
      omega
    · intro j f hj
      have := htips j f hj
      rw [Nat.zero_add] at this
      exact this

/-- Witness of C13: the capture step on the canvas with two points, and the
capture steps on the one-finger frame followed by the frame of the second
finger. -/
theorem capture_keeps_recorded_points_witness :
    ((∃ s', captureStep oneFingerFrame demoCanvas = some s' ∧
        ∀ i, i < 2 → s'.points i = demoCanvas.points i) ∨
     (2 = kCapacity ∧ firstHandHasOneFinger oneFingerFrame = true ∧
       captureStep oneFingerFrame demoCanvas = none ∧
       ∀ v, writePoint demoCanvas.points demoCanvas.count v = none)) ∧
    ∃ sk, captureAll [oneFingerFrame, otherFingerFrame] init = some sk ∧
      sk.count = (([oneFingerFrame, otherFingerFrame] : List Frame).length : Int) ∧
      ∀ j f, [oneFingerFrame, otherFingerFrame][j]? = some f → sk.points j = capturedTip f :=
  capture_keeps_recorded_points oneFingerFrame demoCanvas 2 rfl (by decide)
    [oneFingerFrame, otherFingerFrame] (by decide) (by decide)

/-! ## Capture and the pause and help flags -/

/-- The count and the buffer after the capture step are a function of the
frame, the count and the buffer before it. -/
theorem captureStep_depends_on_buffer_only (frame : Frame) (s1 s2 : OpenGLCanvas)
    (hcount : s1.count = s2.count) (hpoints : s1.points = s2.points) :
    (captureStep frame s1).map (fun s => (s.count, s.points)) =
      (captureStep frame s2).map (fun s => (s.count, s.points)) := by
  unfold captureStep
  cases frame.hands with
  | nil =>
    simp only [Option.map_some', hcount, hpoints]
  | cons hand rest =>
    dsimp only
    by_cases h1 : 1 = hand.fingers.length
    · rw [if_pos h1, if_pos h1, hcount, hpoints]
      cases writePoint s2.points s2.count (leftmost hand.fingers).tipPosition with
      | none => rfl
      | some pts => rfl
    · rw [if_neg h1, if_neg h1]
      simp only [Option.map_some', hcount, hpoints]

/-- Claim C14, as amended: for any two canvases that agree on the count and the
buffer (whatever their paused and show-help flags), the capture step, and
renderOpenGL2D with the same outcome of the context acquisition, on the same
frame give the same count and the same buffer; and on a paused canvas with
the count inside the array, a render pass that gains the lock, obtains the
context and sees a frame whose first hand has exactly one finger appends
that fingertip and leaves the canvas paused. -/
theorem capture_ignores_pause_and_help (frame : Frame) (s1 s2 : OpenGLCanvas)
    (hcount : s1.count = s2.count) (hpoints : s1.points = s2.points) (glRenderer : Bool)
    (p : OpenGLCanvas) (hp : p.m_bPaused = true)
    (h0 : 0 ≤ p.count) (h1 : p.count < (kCapacity : Int))
    (seen : Frame) (hseen : firstHandHasOneFinger seen = true)
    (fps : String) (w h : Int) :
    (captureStep frame s1).map (fun s => (s.count, s.points)) =
      (captureStep frame s2).map (fun s => (s.count, s.points)) ∧
    (renderOpenGL2D glRenderer frame s1).map (fun r => (r.1.count, r.1.points)) =
      (renderOpenGL2D glRenderer frame s2).map (fun r => (r.1.count, r.1.points)) ∧
    ∃ p' out, renderOpenGL true fps w h true seen p = some (p', out) ∧
      p'.count = p.count + 1 ∧ p'.points p.count.toNat = capturedTip seen ∧
      p'.m_bPaused = true := by
  have hcap := captureStep_depends_on_buffer_only frame s1 s2 hcount hpoints
  refine ⟨hcap, ?_, ?_⟩
  · unfold renderOpenGL2D
    cases glRenderer with
    | false =>
      simp only [Bool.false_eq_true, if_false, Option.map_some', hcount, hpoints]
    | true =>
      simp only [if_true]
      cases h1 : captureStep frame s1 with
      | none =>
        cases h2 : captureStep frame s2 with
        | none => rfl
        | some b => rw [h1, h2] at hcap; exact absurd hcap (by simp)
      | some a =>
        cases h2 : captureStep frame s2 with
        | none => rw [h1, h2] at hcap; exact absurd hcap (by simp)
        | some b =>
          rw [h1, h2] at hcap
          exact hcap
  · have hfst := renderOpenGL_fst fps w h true seen p (by omega)
    rw [if_pos rfl, captureStep_capturing seen
      (setupScene w h { p with m_strRenderFPS := fps }) hseen h0 h1] at hfst
    cases hr : renderOpenGL true fps w h true seen p with
    | none => rw [hr] at hfst; exact absurd hfst (by simp)
    | some r =>
      obtain ⟨p', out⟩ := r
      rw [hr] at hfst
      simp only [Option.map_some', Option.some.injEq] at hfst
      subst hfst
      exact ⟨_, out, rfl, rfl, Function.update_same _ _ _, hp⟩

/-- Witness of C14: the canvas with two points, unpaused and paused, and a
render pass on the paused canvas that sees the one-finger frame. -/
theorem capture_ignores_pause_and_help_witness :
    (captureStep twoPointersFrame demoCanvas).map (fun s => (s.count, s.points)) =
      (captureStep twoPointersFrame pausedCanvas).map (fun s => (s.count, s.points)) ∧
    (renderOpenGL2D true twoPointersFrame demoCanvas).map (fun r => (r.1.count, r.1.points)) =
      (renderOpenGL2D true twoPointersFrame pausedCanvas).map
        (fun r => (r.1.count, r.1.points)) ∧
    ∃ p' out, renderOpenGL true "RenderFPS: 60.00" 1024 768 true oneFingerFrame pausedCanvas =
        some (p', out) ∧
      p'.count = pausedCanvas.count + 1 ∧
      p'.points pausedCanvas.count.toNat = capturedTip oneFingerFrame ∧
      p'.m_bPaused = true :=
  capture_ignores_pause_and_help twoPointersFrame demoCanvas pausedCanvas rfl rfl true
    pausedCanvas rfl (by decide) (by decide) oneFingerFrame rfl "RenderFPS: 60.00" 1024 768

/-- Counterexample to C14 as stated: the paused canvas with two points and a
render pass, lock gained and context obtained, that sees a frame reporting
exactly one fingertip, on its second hand; the pass returns with the count
still 2 and entry 2 of the buffer still (0, 0, 0), so the paused canvas did
not append a point. -/
theorem paused_render_skips_fingertip_of_second_hand :
    fistThenPointerFrame.fingers.length = 1 ∧
    pausedCanvas.m_bPaused = true ∧
    pausedCanvas.count = 2 ∧
    pausedCanvas.points 2 = ⟨0, 0, 0⟩ ∧
    (renderOpenGL true "RenderFPS: 60.00" 1024 768 true fistThenPointerFrame pausedCanvas).map
      (fun r => (r.1.count, r.1.points 2)) = some (2, ⟨0, 0, 0⟩) := by
  refine ⟨by decide, rfl, rfl, by decide, ?_⟩
  have hfst := renderOpenGL_fst "RenderFPS: 60.00" 1024 768 true fistThenPointerFrame
    pausedCanvas (by decide)
  rw [if_pos rfl, captureStep_of_not_one fistThenPointerFrame _ rfl] at hfst
  cases hr : renderOpenGL true "RenderFPS: 60.00" 1024 768 true fistThenPointerFrame
      pausedCanvas with
  | none => rw [hr] at hfst; exact absurd hfst (by simp)
  | some r =>
    rw [hr] at hfst
    simp only [Option.map_some', Option.some.injEq] at hfst
    simp only [Option.map_some', hfst, Option.some.injEq, Prod.mk.injEq]
    exact ⟨rfl, by decide⟩

/-! ## The palette shuffle -/

theorem generateLoop_length (fStepSize : ℚ) :
    ∀ (n : Nat) (fR fG fB : ℚ), (generateLoop fStepSize n fR fG fB).length = n := by
  intro n
  induction n with
  | zero => intro fR fG fB; rfl
  | succ n ih =>
    intro fR fG fB
    unfold generateLoop
    rw [List.length_cons]
    split_ifs <;> rw [ih]

theorem generateColors_length (fNumSteps : ℚ) :
    (generateColors fNumSteps).length = kNumColors :=
  generateLoop_length _ kNumColors 0 0 0

/-- The random index lies between `i` and the end of the table, whatever value
the generator returned. -/
theorem randIdx_bounds (i : Nat) (r : Int) (hi : i < kNumColors) :
    i ≤ randIdx i r ∧ randIdx i r < kNumColors := by
  unfold randIdx
  have hk : (kNumColors : Int) = 256 := rfl
  have hi' : (i : Int) < 256 := by
    have : i < 256 := hi
    omega
  have hm : ((kNumColors : Int) - (i : Int)) % 2 ^ 32 = 256 - (i : Int) := by
    rw [hk]
    omega
  rw [hm]
  have hpos : (0 : Int) < 256 - (i : Int) := by omega
  have hx0 : 0 ≤ (r % 2 ^ 32) % (256 - (i : Int)) := Int.emod_nonneg _ (by omega)
  have hx1 : (r % 2 ^ 32) % (256 - (i : Int)) < 256 - (i : Int) := Int.emod_lt_of_pos _ hpos
  generalize (r % 2 ^ 32) % (256 - (i : Int)) = x at hx0 hx1
  have hk' : kNumColors = 256 := rfl
  constructor
  · omega
  · omega

theorem count_pos_of_getElem (l : List Vector) (i : Nat) (h : i < l.length) (a : Vector)
    (ha : l[i] = a) : 0 < l.count a := by
  rw [List.count_pos_iff]
  rw [← ha]
  exact List.getElem_mem h

/-- Exchanging two entries of a list gives a permutation of it. -/
theorem exchange_perm (l : List Vector) (i j : Nat) (hi : i < l.length) (hj : j < l.length) :
    ((l.set i l[j]).set j l[i]).Perm l := by
  rw [List.perm_iff_count]
  intro a
  have hj' : j < (l.set i l[j]).length := by rw [List.length_set]; exact hj
  rw [List.count_set _ _ _ _ hj', List.count_set _ _ _ _ hi]
  have hget : (l.set i l[j])[j] = l[j] := by
    rw [List.getElem_set]
    split_ifs <;> rfl
  rw [hget]
  by_cases hia : l[i] = a <;> by_cases hja : l[j] = a
  · have := count_pos_of_getElem l i hi a hia
    simp only [hia, hja, beq_self_eq_true, if_true]
    omega
  · have := count_pos_of_getElem l i hi a hia
    have hb : (l[j] == a) = false := by simpa using hja
    simp only [hia, hb, beq_self_eq_true, if_true, Bool.false_eq_true, if_false]
    omega
  · have := count_pos_of_getElem l j hj a hja
    have hb : (l[i] == a) = false := by simpa using hia
    simp only [hja, hb, beq_self_eq_true, if_true, Bool.false_eq_true, if_false]
    omega
  · have hb1 : (l[i] == a) = false := by simpa using hia
    have hb2 : (l[j] == a) = false := by simpa using hja
    simp only [hb1, hb2, Bool.false_eq_true, if_false]
    omega

theorem swapStep_perm (table : List Vector) (i j : Nat) (hi : i < table.length)
    (hj : j < table.length) :
    ∃ table', swapStep table i j = some table' ∧ table'.length = table.length ∧
      table'.Perm table := by
  refine ⟨(table.set i table[j]).set j table[i], ?_, ?_, exchange_perm table i j hi hj⟩
  · unfold swapStep
    rw [List.getElem?_eq_getElem hi, List.getElem?_eq_getElem hj]
  · rw [List.length_set, List.length_set]

theorem shuffleLoop_perm (rng : Nat → Int) :
    ∀ (n i : Nat) (table : List Vector), kNumColors - i = n → table.length = kNumColors →
      ∃ table', shuffleLoop rng i table = some table' ∧ table'.length = kNumColors ∧
        table'.Perm table := by
  intro n
  induction n with
  | zero =>
    intro i table hn hlen
    refine ⟨table, ?_, hlen, List.Perm.refl _⟩
    rw [shuffleLoop, if_neg (by omega)]
  | succ n ih =>
    intro i table hn hlen
    have hi : i < kNumColors := by omega
    obtain ⟨_, hr⟩ := randIdx_bounds i (rng i) hi
    obtain ⟨t1, ht1, hlen1, hperm1⟩ :=
      swapStep_perm table i (randIdx i (rng i)) (by omega) (by omega)
    obtain ⟨t2, ht2, hlen2, hperm2⟩ := ih (i + 1) t1 (by omega) (by omega)
    refine ⟨t2, ?_, hlen2, hperm2.trans hperm1⟩
    rw [shuffleLoop, if_pos hi, ht1]
    exact ht2

/-- Claim C15: for every sequence of values returned by the random generator
and every 256-entry colour table, the shuffle loop of initColors returns a
256-entry table with exactly the same multiset of colours; in particular the
table initColors ends with has the multiset of colours of the table its
generation loop produced. -/
theorem shuffle_is_permutation (rng : Nat → Int) (table : List Vector)
    (hlen : table.length = kNumColors) (fNumSteps : ℚ) :
    (∃ table', shuffleLoop rng 0 table = some table' ∧ table'.length = kNumColors ∧
      (table' : Multiset Vector) = (table : Multiset Vector)) ∧
    ∃ colors, initColors fNumSteps rng = some colors ∧ colors.length = kNumColors ∧
      (colors : Multiset Vector) = (generateColors fNumSteps : Multiset Vector) := by
  constructor
  · obtain ⟨t, ht, hl, hp⟩ := shuffleLoop_perm rng kNumColors 0 table rfl hlen
    exact ⟨t, ht, hl, Multiset.coe_eq_coe.mpr hp⟩
  · obtain ⟨t, ht, hl, hp⟩ :=
      shuffleLoop_perm rng kNumColors 0 (generateColors fNumSteps) rfl
        (generateColors_length fNumSteps)
    exact ⟨t, ht, hl, Multiset.coe_eq_coe.mpr hp⟩

/-- Witness of C15: the generated table for 127/20 steps, shuffled with a
generator that returns negative and positive values. -/
theorem shuffle_is_permutation_witness :
    (∃ table', shuffleLoop (fun k => 7919 * (k : Int) - 100000) 0 (generateColors (127 / 20)) =
        some table' ∧ table'.length = kNumColors ∧
      (table' : Multiset Vector) = (generateColors (127 / 20) : Multiset Vector)) ∧
    ∃ colors, initColors (127 / 20) (fun k => 7919 * (k : Int) - 100000) = some colors ∧
      colors.length = kNumColors ∧
      (colors : Multiset Vector) = (generateColors (127 / 20) : Multiset Vector) :=
  shuffle_is_permutation (fun k => 7919 * (k : Int) - 100000) (generateColors (127 / 20))
    (generateColors_length (127 / 20)) (127 / 20)


end Paint3D
